import Mathlib

/-!
Shallow embedding of the event-sourced order-processing platform
(crates `domain`, `event-store`, `projections`, `saga`) and proofs about it.

Machine integers are modelled as `Int`/`Nat` with explicit two's-complement
wrapping where the Rust code performs unchecked arithmetic: `i64wrap` is the
result of release-mode `+`/`-`/`*` on `i64`, `u32wrap` the analogue for `u32`.
Clock reads (`Utc::now()`) become explicit timestamp arguments; UUIDs become
opaque `Nat` identifiers; JSON payloads that the modelled code never inspects
are opaque `Nat` values.
-/

deriving instance DecidableEq for Except

namespace EventSourcing

/-- Two's-complement reduction of an integer into the `i64` range
`[-2^63, 2^63)`; this is what Rust's unchecked `i64` arithmetic produces in
release builds. -/
def i64wrap (x : Int) : Int := (x + 2 ^ 63) % 2 ^ 64 - 2 ^ 63

/-- Reduction of a natural number into the `u32` range, the result of Rust's
unchecked `u32` addition in release builds. -/
def u32wrap (x : Nat) : Nat := x % 2 ^ 32

/-- `x` fits in a signed 64-bit integer. -/
def inI64 (x : Int) : Prop := -(2 ^ 63) ≤ x ∧ x < 2 ^ 63

instance (x : Int) : Decidable (inI64 x) := by
  unfold inI64
  infer_instance

theorem i64wrap_emod (x : Int) : i64wrap x % 2 ^ 64 = x % 2 ^ 64 := by
  unfold i64wrap
  conv_rhs => rw [show x = x + 2 ^ 63 - 2 ^ 63 by ring]
  rw [Int.sub_emod, Int.sub_emod (x + 2 ^ 63), Int.emod_emod_of_dvd]
  exact dvd_refl _

theorem i64wrap_congr {x y : Int} (h : x % 2 ^ 64 = y % 2 ^ 64) :
    i64wrap x = i64wrap y := by
  unfold i64wrap
  rw [Int.add_emod, h, ← Int.add_emod]

theorem i64wrap_range (x : Int) : -(2 ^ 63) ≤ i64wrap x ∧ i64wrap x < 2 ^ 63 := by
  unfold i64wrap
  have h1 : 0 ≤ (x + 2 ^ 63) % 2 ^ 64 := Int.emod_nonneg _ (by norm_num)
  have h2 : (x + 2 ^ 63) % 2 ^ 64 < 2 ^ 64 := Int.emod_lt_of_pos _ (by norm_num)
  constructor <;> omega

theorem i64wrap_eq_self {x : Int} (h : inI64 x) : i64wrap x = x := by
  unfold i64wrap
  rcases h with ⟨h1, h2⟩
  rw [Int.emod_eq_of_lt (by omega) (by omega)]
  omega

theorem i64wrap_add_left (a b : Int) : i64wrap (i64wrap a + b) = i64wrap (a + b) := by
  apply i64wrap_congr
  rw [Int.add_emod, i64wrap_emod, ← Int.add_emod]

theorem i64wrap_sub_left (a b : Int) : i64wrap (i64wrap a - b) = i64wrap (a - b) := by
  apply i64wrap_congr
  rw [Int.sub_emod, i64wrap_emod, ← Int.sub_emod]

theorem i64wrap_add_right (a b : Int) : i64wrap (a + i64wrap b) = i64wrap (a + b) := by
  apply i64wrap_congr
  rw [Int.add_emod, i64wrap_emod, ← Int.add_emod]

theorem i64wrap_sub_right (a b : Int) : i64wrap (a - i64wrap b) = i64wrap (a - b) := by
  apply i64wrap_congr
  rw [Int.sub_emod, i64wrap_emod, ← Int.sub_emod]

/-! ## Money and order value objects (`domain/src/order/value_objects.rs`) -/

/-- `Money`: a signed 64-bit count of cents. The arithmetic operations are the
plain (unchecked) `i64` operations of the source, so they wrap on overflow. -/
structure Money where
  cents : Int
deriving DecidableEq, Repr

namespace Money

def from_cents (c : Int) : Money := ⟨c⟩

def zero : Money := ⟨0⟩

def is_positive (m : Money) : Bool := 0 < m.cents

def is_zero (m : Money) : Bool := m.cents = 0

def is_negative (m : Money) : Bool := m.cents < 0

/-- `Money::add`: `self.cents + other.cents` on `i64`. -/
def add (a b : Money) : Money := ⟨i64wrap (a.cents + b.cents)⟩

/-- `Money::subtract`: `self.cents - other.cents` on `i64`. -/
def subtract (a b : Money) : Money := ⟨i64wrap (a.cents - b.cents)⟩

/-- `Money::multiply`: `self.cents * quantity as i64` on `i64`. -/
def multiply (a : Money) (quantity : Nat) : Money :=
  ⟨i64wrap (a.cents * (quantity : Int))⟩

end Money

/-- `OrderItem` from `value_objects.rs`. `ProductId` is an opaque string. -/
structure OrderItem where
  product_id : String
  product_name : String
  quantity : Nat
  unit_price : Money
deriving DecidableEq, Repr

/-- `OrderItem::total_price`: `unit_price.multiply(quantity)`. -/
def OrderItem.total_price (item : OrderItem) : Money :=
  item.unit_price.multiply item.quantity

/-! ## Order state machine (`domain/src/order/state.rs`) -/

inductive OrderState where
  | draft
  | reserved
  | processing
  | completed
  | cancelled
deriving DecidableEq, Repr

namespace OrderState

def can_modify_items : OrderState → Bool
  | .draft => true
  | _ => false

def can_submit : OrderState → Bool
  | .draft => true
  | _ => false

def can_reserve : OrderState → Bool
  | .draft => true
  | _ => false

def can_start_processing : OrderState → Bool
  | .reserved => true
  | _ => false

def can_complete : OrderState → Bool
  | .processing => true
  | _ => false

def can_cancel : OrderState → Bool
  | .draft => true
  | .reserved => true
  | .processing => true
  | _ => false

def is_terminal : OrderState → Bool
  | .completed => true
  | .cancelled => true
  | _ => false

end OrderState

/-! ## Order errors (`domain/src/order/mod.rs`) -/

inductive OrderError where
  | customerIdRequired
  | invalidStateTransition (current_state : OrderState) (action : String)
  | itemNotFound (product_id : String)
  | invalidQuantity (quantity : Nat)
  | invalidPrice (price : Int)
  | noItems
  | alreadyCreated
deriving DecidableEq, Repr

/-- Discriminator for the `InvalidStateTransition` variant. -/
def OrderError.isInvalidStateTransition : OrderError → Bool
  | .invalidStateTransition _ _ => true
  | _ => false

/-! ## Order events (`domain/src/order/events.rs`); timestamps are explicit. -/

structure OrderCreatedData where
  order_id : Nat
  customer_id : Nat
  created_at : Int
deriving DecidableEq, Repr

structure ItemAddedData where
  product_id : String
  product_name : String
  quantity : Nat
  unit_price : Money
deriving DecidableEq, Repr

structure ItemRemovedData where
  product_id : String
deriving DecidableEq, Repr

structure ItemQuantityUpdatedData where
  product_id : String
  old_quantity : Nat
  new_quantity : Nat
deriving DecidableEq, Repr

structure OrderSubmittedData where
  submitted_at : Int
  total_amount : Money
  item_count : Nat
deriving DecidableEq, Repr

structure OrderReservedData where
  reserved_at : Int
  reservation_id : Option String
deriving DecidableEq, Repr

structure OrderProcessingData where
  started_at : Int
  payment_id : Option String
deriving DecidableEq, Repr

structure OrderCompletedData where
  completed_at : Int
  tracking_number : Option String
deriving DecidableEq, Repr

structure OrderCancelledData where
  cancelled_at : Int
  reason : String
  cancelled_by : Option String
deriving DecidableEq, Repr

inductive OrderEvent where
  | orderCreated (data : OrderCreatedData)
  | itemAdded (data : ItemAddedData)
  | itemRemoved (data : ItemRemovedData)
  | itemQuantityUpdated (data : ItemQuantityUpdatedData)
  | orderSubmitted (data : OrderSubmittedData)
  | orderReserved (data : OrderReservedData)
  | orderProcessing (data : OrderProcessingData)
  | orderCompleted (data : OrderCompletedData)
  | orderCancelled (data : OrderCancelledData)
deriving DecidableEq, Repr

/-! ## The items map: `HashMap<ProductId, OrderItem>` modelled as an
association list operated on by key, mirroring `insert`, `remove`, `get`
and `get_mut`. -/

abbrev Items := List (String × OrderItem)

namespace Items

def lookup : Items → String → Option OrderItem
  | [], _ => none
  | (k, v) :: rest, key => if k = key then some v else lookup rest key

/-- `HashMap::insert`: replaces an existing binding, otherwise adds one. -/
def insert : Items → String → OrderItem → Items
  | [], key, item => [(key, item)]
  | (k, v) :: rest, key, item =>
    if k = key then (key, item) :: rest else (k, v) :: insert rest key item

/-- `HashMap::remove`. -/
def erase : Items → String → Items
  | [], _ => []
  | (k, v) :: rest, key => if k = key then rest else (k, v) :: erase rest key

/-- `HashMap::get_mut` followed by a quantity assignment. -/
def setQuantity : Items → String → Nat → Items
  | [], _, _ => []
  | (k, v) :: rest, key, q =>
    if k = key then (k, { v with quantity := q }) :: rest
    else (k, v) :: setQuantity rest key q

end Items

/-! ## Order aggregate (`domain/src/order/aggregate.rs`) -/

structure Order where
  id : Option Nat := none
  version : Int := 0
  customer_id : Option Nat := none
  state : OrderState := .draft
  items : Items := []
  total_amount : Money := Money.zero
deriving DecidableEq, Repr

namespace Order

def item_count (o : Order) : Nat := o.items.length

def has_items (o : Order) : Bool := !o.items.isEmpty

def is_terminal (o : Order) : Bool := o.state.is_terminal

def apply_order_created (o : Order) (data : OrderCreatedData) : Order :=
  { o with id := some data.order_id,
           customer_id := some data.customer_id,
           state := .draft }

def apply_item_added (o : Order) (data : ItemAddedData) : Order :=
  let item : OrderItem :=
    ⟨data.product_id, data.product_name, data.quantity, data.unit_price⟩
  { o with total_amount := o.total_amount.add item.total_price,
           items := o.items.insert data.product_id item }

def apply_item_removed (o : Order) (product_id : String) : Order :=
  match o.items.lookup product_id with
  | some item =>
    { o with items := o.items.erase product_id,
             total_amount := o.total_amount.subtract item.total_price }
  | none => o

def apply_item_quantity_updated (o : Order) (data : ItemQuantityUpdatedData) : Order :=
  match o.items.lookup data.product_id with
  | some item =>
    let updated : OrderItem := { item with quantity := data.new_quantity }
    { o with items := o.items.setQuantity data.product_id data.new_quantity,
             total_amount :=
               (o.total_amount.subtract item.total_price).add updated.total_price }
  | none => o

def apply (o : Order) : OrderEvent → Order
  | .orderCreated data => o.apply_order_created data
  | .itemAdded data => o.apply_item_added data
  | .itemRemoved data => o.apply_item_removed data.product_id
  | .itemQuantityUpdated data => o.apply_item_quantity_updated data
  | .orderSubmitted _ => o
  | .orderReserved _ => { o with state := .reserved }
  | .orderProcessing _ => { o with state := .processing }
  | .orderCompleted _ => { o with state := .completed }
  | .orderCancelled _ => { o with state := .cancelled }

def apply_events (o : Order) (events : List OrderEvent) : Order :=
  events.foldl apply o

/-- `Order::create`. -/
def create (o : Order) (order_id customer_id : Nat) (t : Int) :
    Except OrderError (List OrderEvent) :=
  if o.id.isSome then .error .alreadyCreated
  else .ok [.orderCreated ⟨order_id, customer_id, t⟩]

/-- `Order::add_item`. On an existing product it emits `ItemQuantityUpdated`
with the `u32` sum of the old and new quantities. -/
def add_item (o : Order) (item : OrderItem) : Except OrderError (List OrderEvent) :=
  if !o.state.can_modify_items then
    .error (.invalidStateTransition o.state "add item")
  else if item.quantity = 0 then .error (.invalidQuantity item.quantity)
  else if !item.unit_price.is_positive then .error (.invalidPrice item.unit_price.cents)
  else
    match o.items.lookup item.product_id with
    | some existing =>
      .ok [.itemQuantityUpdated
            ⟨item.product_id, existing.quantity,
             u32wrap (existing.quantity + item.quantity)⟩]
    | none =>
      .ok [.itemAdded ⟨item.product_id, item.product_name, item.quantity, item.unit_price⟩]

/-- `Order::remove_item`. -/
def remove_item (o : Order) (product_id : String) : Except OrderError (List OrderEvent) :=
  if !o.state.can_modify_items then
    .error (.invalidStateTransition o.state "remove item")
  else if (o.items.lookup product_id).isNone then .error (.itemNotFound product_id)
  else .ok [.itemRemoved ⟨product_id⟩]

/-- `Order::update_item_quantity`. -/
def update_item_quantity (o : Order) (product_id : String) (new_quantity : Nat) :
    Except OrderError (List OrderEvent) :=
  if !o.state.can_modify_items then
    .error (.invalidStateTransition o.state "update item quantity")
  else
    match o.items.lookup product_id with
    | none => .error (.itemNotFound product_id)
    | some existing =>
      if new_quantity = 0 then .ok [.itemRemoved ⟨product_id⟩]
      else if new_quantity ≠ existing.quantity then
        .ok [.itemQuantityUpdated ⟨product_id, existing.quantity, new_quantity⟩]
      else .ok []

/-- `Order::submit`. -/
def submit (o : Order) (t : Int) : Except OrderError (List OrderEvent) :=
  if !o.state.can_submit then .error (.invalidStateTransition o.state "submit")
  else if !o.has_items then .error .noItems
  else .ok [.orderSubmitted ⟨t, o.total_amount, o.items.length⟩]

/-- `Order::mark_reserved`. -/
def mark_reserved (o : Order) (t : Int) (reservation_id : Option String) :
    Except OrderError (List OrderEvent) :=
  if !o.state.can_reserve then .error (.invalidStateTransition o.state "mark reserved")
  else .ok [.orderReserved ⟨t, reservation_id⟩]

/-- `Order::start_processing`. -/
def start_processing (o : Order) (t : Int) (payment_id : Option String) :
    Except OrderError (List OrderEvent) :=
  if !o.state.can_start_processing then
    .error (.invalidStateTransition o.state "start processing")
  else .ok [.orderProcessing ⟨t, payment_id⟩]

/-- `Order::complete`. -/
def complete (o : Order) (t : Int) (tracking_number : Option String) :
    Except OrderError (List OrderEvent) :=
  if !o.state.can_complete then .error (.invalidStateTransition o.state "complete")
  else .ok [.orderCompleted ⟨t, tracking_number⟩]

/-- `Order::cancel`. -/
def cancel (o : Order) (t : Int) (reason : String) (cancelled_by : Option String) :
    Except OrderError (List OrderEvent) :=
  if !o.state.can_cancel then .error (.invalidStateTransition o.state "cancel")
  else .ok [.orderCancelled ⟨t, reason, cancelled_by⟩]

end Order

/-! ## Command-level reachability for the Order aggregate -/

inductive OrderCommand where
  | create (order_id customer_id : Nat) (t : Int)
  | addItem (item : OrderItem)
  | removeItem (product_id : String)
  | updateItemQuantity (product_id : String) (new_quantity : Nat)
  | submit (t : Int)
  | markReserved (t : Int) (reservation_id : Option String)
  | startProcessing (t : Int) (payment_id : Option String)
  | complete (t : Int) (tracking_number : Option String)
  | cancel (t : Int) (reason : String) (cancelled_by : Option String)

/-- Dispatch of an order command to the corresponding decision method. -/
def Order.execute (o : Order) : OrderCommand → Except OrderError (List OrderEvent)
  | .create order_id customer_id t => o.create order_id customer_id t
  | .addItem item => o.add_item item
  | .removeItem product_id => o.remove_item product_id
  | .updateItemQuantity product_id q => o.update_item_quantity product_id q
  | .submit t => o.submit t
  | .markReserved t rid => o.mark_reserved t rid
  | .startProcessing t pid => o.start_processing t pid
  | .complete t tn => o.complete t tn
  | .cancel t r cb => o.cancel t r cb

/-- States of the Order aggregate reachable from the default value by
executing commands and applying the events they emit. -/
inductive Order.Reachable : Order → Prop
  | init : Order.Reachable {}
  | step {o : Order} {c : OrderCommand} {evs : List OrderEvent} :
      Order.Reachable o → o.execute c = .ok evs →
      Order.Reachable (o.apply_events evs)

/-! ## Item-sum bookkeeping lemmas -/

/-- Exact (unbounded) contribution of one stored item: `quantity × unit_price`. -/
def itemContribution (it : OrderItem) : Int := (it.quantity : Int) * it.unit_price.cents

/-- Exact (unbounded) sum over all stored items of `quantity × unit_price`. -/
def itemsTotalInt (items : Items) : Int :=
  (items.map (fun kv => itemContribution kv.2)).sum

theorem itemsTotalInt_nil : itemsTotalInt [] = 0 := rfl

theorem itemsTotalInt_cons (kv : String × OrderItem) (rest : Items) :
    itemsTotalInt (kv :: rest) = itemContribution kv.2 + itemsTotalInt rest := by
  simp [itemsTotalInt]

theorem itemsTotalInt_insert_of_lookup_none {items : Items} {key : String}
    (it : OrderItem) (h : items.lookup key = none) :
    itemsTotalInt (items.insert key it) = itemsTotalInt items + itemContribution it := by
  induction items with
  | nil => simp [Items.insert, itemsTotalInt]
  | cons kv rest ih =>
    obtain ⟨k, v⟩ := kv
    simp only [Items.lookup] at h
    by_cases hk : k = key
    · simp [hk] at h
    · rw [if_neg hk] at h
      simp only [Items.insert, if_neg hk, itemsTotalInt_cons, ih h]
      ring

theorem itemsTotalInt_erase_of_lookup_some {items : Items} {key : String}
    {it : OrderItem} (h : items.lookup key = some it) :
    itemsTotalInt (items.erase key) = itemsTotalInt items - itemContribution it := by
  induction items with
  | nil => simp [Items.lookup] at h
  | cons kv rest ih =>
    obtain ⟨k, v⟩ := kv
    simp only [Items.lookup] at h
    by_cases hk : k = key
    · rw [if_pos hk] at h
      cases h
      simp only [Items.erase, if_pos hk, itemsTotalInt_cons]
      ring
    · rw [if_neg hk] at h
      simp only [Items.erase, if_neg hk, itemsTotalInt_cons, ih h]
      ring

theorem itemsTotalInt_setQuantity_of_lookup_some {items : Items} {key : String}
    {it : OrderItem} (q : Nat) (h : items.lookup key = some it) :
    itemsTotalInt (items.setQuantity key q)
      = itemsTotalInt items - itemContribution it + (q : Int) * it.unit_price.cents := by
  induction items with
  | nil => simp [Items.lookup] at h
  | cons kv rest ih =>
    obtain ⟨k, v⟩ := kv
    simp only [Items.lookup] at h
    by_cases hk : k = key
    · rw [if_pos hk] at h
      cases h
      simp only [Items.setQuantity, if_pos hk, itemsTotalInt_cons, itemContribution]
      ring
    · rw [if_neg hk] at h
      simp only [Items.setQuantity, if_neg hk, itemsTotalInt_cons, ih h]
      ring

theorem lookup_setQuantity_self {items : Items} {key : String} {it : OrderItem}
    (q : Nat) (h : items.lookup key = some it) :
    (items.setQuantity key q).lookup key = some { it with quantity := q } := by
  induction items with
  | nil => simp [Items.lookup] at h
  | cons kv rest ih =>
    obtain ⟨k, v⟩ := kv
    simp only [Items.lookup] at h
    by_cases hk : k = key
    · rw [if_pos hk] at h
      cases h
      simp [Items.setQuantity, Items.lookup, hk]
    · rw [if_neg hk] at h
      simp [Items.setQuantity, Items.lookup, hk, ih h]

theorem lookup_setQuantity_ne {items : Items} {key : String} (q : Nat)
    (k : String) (hk : k ≠ key) :
    (items.setQuantity key q).lookup k = items.lookup k := by
  induction items with
  | nil => simp [Items.setQuantity, Items.lookup]
  | cons kv rest ih =>
    obtain ⟨k0, v⟩ := kv
    by_cases h0 : k0 = key
    · subst h0
      simp [Items.setQuantity, Items.lookup, Ne.symm hk]
    · simp [Items.setQuantity, Items.lookup, h0, ih]

/-! ## Claim C9: Money arithmetic -/

/-- C9 counterexample: `Money::add` at `i64::MAX` and `1` wraps to `i64::MIN`
instead of detecting the overflow — the operations are the plain unchecked
`i64` operators, not checked arithmetic (the error enum carries no overflow
variant and no `checked_*` call appears in the source). -/
theorem money_add_wraps_at_i64_max :
    (Money.add (Money.from_cents (2 ^ 63 - 1)) (Money.from_cents 1)).cents
      = -(2 ^ 63) := by
  decide

/-- C9 (amended): `Money` is a signed 64-bit count of cents whose `add`,
`subtract` and `multiply(u32)` are plain unchecked `i64` operations: on
operands whose exact result fits in `i64` they return it exactly, and
otherwise they wrap modulo `2^64` (release builds; debug builds abort)
rather than detecting the overflow. -/
theorem money_unchecked_ops_exact_in_range (a b : Int) (q : Nat)
    (ha : inI64 a) (hb : inI64 b) (hq : q < 2 ^ 32) :
    (inI64 (a + b) → (Money.add ⟨a⟩ ⟨b⟩).cents = a + b) ∧
    (inI64 (a - b) → (Money.subtract ⟨a⟩ ⟨b⟩).cents = a - b) ∧
    (inI64 (a * (q : Int)) → (Money.multiply ⟨a⟩ q).cents = a * (q : Int)) := by
  refine ⟨fun h => ?_, fun h => ?_, fun h => ?_⟩ <;>
    simp [Money.add, Money.subtract, Money.multiply, i64wrap_eq_self h]

/-- Witness for C9 at `$10.00 + $5.00`, `$10.00 - $5.00` and `$10.00 × 3`. -/
theorem money_unchecked_ops_exact_in_range_witness :
    (inI64 (1000 + 500) → (Money.add ⟨1000⟩ ⟨500⟩).cents = 1000 + 500) ∧
    (inI64 (1000 - 500) → (Money.subtract ⟨1000⟩ ⟨500⟩).cents = 1000 - 500) ∧
    (inI64 (1000 * ((3 : Nat) : Int)) →
      (Money.multiply ⟨1000⟩ 3).cents = 1000 * ((3 : Nat) : Int)) :=
  money_unchecked_ops_exact_in_range 1000 500 3 (by decide) (by decide) (by decide)

/-! ## Claim C10: re-adding an existing product -/

/-- C10: `add_item` on a Draft order whose `product_id` is already stored
emits an `ItemQuantityUpdated` event carrying only the product id and the
old and new quantities; applying it updates only that item's quantity — the
stored `product_name` and `unit_price` stay those of the original add, the
other items are untouched, and the order's id, customer and state are
unchanged. The `product_name` and `unit_price` of the new call are
discarded. -/
theorem add_item_existing_product_frame (o : Order) (item existing : OrderItem)
    (hstate : o.state = .draft)
    (hq : item.quantity ≠ 0)
    (hp : item.unit_price.is_positive = true)
    (hlook : o.items.lookup item.product_id = some existing) :
    o.add_item item =
      .ok [.itemQuantityUpdated
            ⟨item.product_id, existing.quantity,
             u32wrap (existing.quantity + item.quantity)⟩] ∧
    (o.apply (.itemQuantityUpdated
        ⟨item.product_id, existing.quantity,
         u32wrap (existing.quantity + item.quantity)⟩)).items.lookup item.product_id
      = some { existing with quantity := u32wrap (existing.quantity + item.quantity) } ∧
    (∀ k, k ≠ item.product_id →
      (o.apply (.itemQuantityUpdated
          ⟨item.product_id, existing.quantity,
           u32wrap (existing.quantity + item.quantity)⟩)).items.lookup k
        = o.items.lookup k) ∧
    (o.apply (.itemQuantityUpdated
        ⟨item.product_id, existing.quantity,
         u32wrap (existing.quantity + item.quantity)⟩)).state = o.state ∧
    (o.apply (.itemQuantityUpdated
        ⟨item.product_id, existing.quantity,
         u32wrap (existing.quantity + item.quantity)⟩)).id = o.id ∧
    (o.apply (.itemQuantityUpdated
        ⟨item.product_id, existing.quantity,
         u32wrap (existing.quantity + item.quantity)⟩)).customer_id = o.customer_id := by
  have hmod : o.state.can_modify_items = true := by rw [hstate]; rfl
  refine ⟨?_, ?_, ?_, ?_, ?_, ?_⟩
  · simp [Order.add_item, hmod, hq, hp, hlook]
  · simp [Order.apply, Order.apply_item_quantity_updated, hlook,
      lookup_setQuantity_self _ hlook]
  · intro k hk
    simp [Order.apply, Order.apply_item_quantity_updated, hlook,
      lookup_setQuantity_ne _ k hk]
  · simp [Order.apply, Order.apply_item_quantity_updated, hlook]
  · simp [Order.apply, Order.apply_item_quantity_updated, hlook]
  · simp [Order.apply, Order.apply_item_quantity_updated, hlook]

/-- A Draft order holding `SKU-001 "Widget" ×2 @ $10.00`, for the C10 witness. -/
def oC10 : Order :=
  { items := [("SKU-001", ⟨"SKU-001", "Widget", 2, ⟨1000⟩⟩)] }

/-- Witness for C10: re-adding `SKU-001` with name `"Gadget"`, quantity 3 and
price `$9.99` merges into quantity 5, keeping the stored name `"Widget"` and
price `$10.00`. -/
theorem add_item_existing_product_frame_witness :
    oC10.add_item ⟨"SKU-001", "Gadget", 3, ⟨999⟩⟩ =
      .ok [.itemQuantityUpdated ⟨"SKU-001", 2, u32wrap (2 + 3)⟩] ∧
    (oC10.apply (.itemQuantityUpdated ⟨"SKU-001", 2, u32wrap (2 + 3)⟩)).items.lookup
        "SKU-001" = some ⟨"SKU-001", "Widget", u32wrap (2 + 3), ⟨1000⟩⟩ ∧
    (∀ k, k ≠ "SKU-001" →
      (oC10.apply (.itemQuantityUpdated ⟨"SKU-001", 2, u32wrap (2 + 3)⟩)).items.lookup k
        = oC10.items.lookup k) ∧
    (oC10.apply (.itemQuantityUpdated ⟨"SKU-001", 2, u32wrap (2 + 3)⟩)).state
      = oC10.state ∧
    (oC10.apply (.itemQuantityUpdated ⟨"SKU-001", 2, u32wrap (2 + 3)⟩)).id = oC10.id ∧
    (oC10.apply (.itemQuantityUpdated ⟨"SKU-001", 2, u32wrap (2 + 3)⟩)).customer_id
      = oC10.customer_id :=
  add_item_existing_product_frame oC10 ⟨"SKU-001", "Gadget", 3, ⟨999⟩⟩
    ⟨"SKU-001", "Widget", 2, ⟨1000⟩⟩ rfl (by decide) (by decide) (by decide)

/-! ## Claim C6: commands against forbidden states -/

/-- C6 (amended): every state-gated Order command (`add_item`, `remove_item`,
`update_item_quantity`, `submit`, `mark_reserved`, `start_processing`,
`complete`, `cancel`) issued against a state its gate forbids fails with
`InvalidStateTransition{current_state, action}`, and every gate forbids the
terminal states Completed and Cancelled. The exception is `create`, whose
gate is the presence of an id rather than the state: on an already-created
(hence on any reachable terminal) order it fails with `AlreadyCreated`. -/
theorem order_command_state_gates (o : Order) (item : OrderItem) (pid : String)
    (q oid cid : Nat) (t : Int) (rid pay tn : Option String) (r : String)
    (cb : Option String) :
    (o.state.can_modify_items = false →
      o.add_item item = .error (.invalidStateTransition o.state "add item") ∧
      o.remove_item pid = .error (.invalidStateTransition o.state "remove item") ∧
      o.update_item_quantity pid q
        = .error (.invalidStateTransition o.state "update item quantity")) ∧
    (o.state.can_submit = false →
      o.submit t = .error (.invalidStateTransition o.state "submit")) ∧
    (o.state.can_reserve = false →
      o.mark_reserved t rid = .error (.invalidStateTransition o.state "mark reserved")) ∧
    (o.state.can_start_processing = false →
      o.start_processing t pay
        = .error (.invalidStateTransition o.state "start processing")) ∧
    (o.state.can_complete = false →
      o.complete t tn = .error (.invalidStateTransition o.state "complete")) ∧
    (o.state.can_cancel = false →
      o.cancel t r cb = .error (.invalidStateTransition o.state "cancel")) ∧
    (o.state.is_terminal = true →
      o.state.can_modify_items = false ∧ o.state.can_submit = false ∧
      o.state.can_reserve = false ∧ o.state.can_start_processing = false ∧
      o.state.can_complete = false ∧ o.state.can_cancel = false) ∧
    (o.id.isSome = true → o.create oid cid t = .error .alreadyCreated) := by
  refine ⟨fun h => ⟨?_, ?_, ?_⟩, fun h => ?_, fun h => ?_, fun h => ?_, fun h => ?_,
    fun h => ?_, fun h => ?_, fun h => ?_⟩
  · simp [Order.add_item, h]
  · simp [Order.remove_item, h]
  · simp [Order.update_item_quantity, h]
  · simp [Order.submit, h]
  · simp [Order.mark_reserved, h]
  · simp [Order.start_processing, h]
  · simp [Order.complete, h]
  · simp [Order.cancel, h]
  · cases hs : o.state <;> simp_all [OrderState.is_terminal, OrderState.can_modify_items,
      OrderState.can_submit, OrderState.can_reserve, OrderState.can_start_processing,
      OrderState.can_complete, OrderState.can_cancel]
  · simp [Order.create, h]

/-- Stages of a reachable completed order (create, add item, submit, reserve,
process, complete), used by the C6 counterexample and witness. -/
def oC6a : Order := Order.apply_events {} [.orderCreated ⟨1, 2, 0⟩]

def oC6b : Order := oC6a.apply_events [.itemAdded ⟨"SKU-001", "Widget", 2, ⟨1000⟩⟩]

def oC6c : Order := oC6b.apply_events [.orderSubmitted ⟨0, ⟨2000⟩, 1⟩]

def oC6d : Order := oC6c.apply_events [.orderReserved ⟨0, none⟩]

def oC6e : Order := oC6d.apply_events [.orderProcessing ⟨0, none⟩]

/-- A command-reachable order in the terminal state Completed. -/
def oDone : Order := oC6e.apply_events [.orderCompleted ⟨0, none⟩]

theorem oDone_reachable : Order.Reachable oDone := by
  have h1 := Order.Reachable.step Order.Reachable.init
    (show Order.execute {} (.create 1 2 0) = .ok [.orderCreated ⟨1, 2, 0⟩] by decide)
  have h2 := Order.Reachable.step h1
    (show oC6a.execute (.addItem ⟨"SKU-001", "Widget", 2, ⟨1000⟩⟩)
        = .ok [.itemAdded ⟨"SKU-001", "Widget", 2, ⟨1000⟩⟩] by decide)
  have h3 := Order.Reachable.step h2
    (show oC6b.execute (.submit 0) = .ok [.orderSubmitted ⟨0, ⟨2000⟩, 1⟩] by decide)
  have h4 := Order.Reachable.step h3
    (show oC6c.execute (.markReserved 0 none) = .ok [.orderReserved ⟨0, none⟩] by decide)
  have h5 := Order.Reachable.step h4
    (show oC6d.execute (.startProcessing 0 none)
        = .ok [.orderProcessing ⟨0, none⟩] by decide)
  exact Order.Reachable.step h5
    (show oC6e.execute (.complete 0 none) = .ok [.orderCompleted ⟨0, none⟩] by decide)

/-- C6 counterexample: `create` issued against a command-reachable order in
the terminal state Completed fails with `AlreadyCreated`, not with
`InvalidStateTransition` as the claim requires of every command. -/
theorem create_on_terminal_order_not_invalid_state :
    Order.Reachable oDone ∧ oDone.state = .completed ∧
    oDone.create 9 9 0 = .error .alreadyCreated ∧
    OrderError.alreadyCreated.isInvalidStateTransition = false :=
  ⟨oDone_reachable, by decide, by decide, by decide⟩

/-- Witness for C6 at the reachable Completed order `oDone`: each state-gated
command fails with `InvalidStateTransition`, and `create` with
`AlreadyCreated`. -/
theorem order_command_state_gates_witness :
    (oDone.state.can_modify_items = false →
      oDone.add_item ⟨"SKU-002", "Gadget", 1, ⟨500⟩⟩
        = .error (.invalidStateTransition oDone.state "add item") ∧
      oDone.remove_item "SKU-001"
        = .error (.invalidStateTransition oDone.state "remove item") ∧
      oDone.update_item_quantity "SKU-001" 3
        = .error (.invalidStateTransition oDone.state "update item quantity")) ∧
    (oDone.state.can_submit = false →
      oDone.submit 0 = .error (.invalidStateTransition oDone.state "submit")) ∧
    (oDone.state.can_reserve = false →
      oDone.mark_reserved 0 none
        = .error (.invalidStateTransition oDone.state "mark reserved")) ∧
    (oDone.state.can_start_processing = false →
      oDone.start_processing 0 none
        = .error (.invalidStateTransition oDone.state "start processing")) ∧
    (oDone.state.can_complete = false →
      oDone.complete 0 none = .error (.invalidStateTransition oDone.state "complete")) ∧
    (oDone.state.can_cancel = false →
      oDone.cancel 0 "late" none
        = .error (.invalidStateTransition oDone.state "cancel")) ∧
    (oDone.state.is_terminal = true →
      oDone.state.can_modify_items = false ∧ oDone.state.can_submit = false ∧
      oDone.state.can_reserve = false ∧ oDone.state.can_start_processing = false ∧
      oDone.state.can_complete = false ∧ oDone.state.can_cancel = false) ∧
    (oDone.id.isSome = true → oDone.create 9 9 0 = .error .alreadyCreated) :=
  order_command_state_gates oDone ⟨"SKU-002", "Gadget", 1, ⟨500⟩⟩ "SKU-001"
    3 9 9 0 none none none "late" none

/-! ## Claim C3: the cached order total -/

theorem i64wrap_add_chain (S n : Int) :
    i64wrap (i64wrap S + i64wrap n) = i64wrap (S + n) := by
  rw [i64wrap_add_right, i64wrap_add_left]

theorem i64wrap_sub_chain (S c : Int) :
    i64wrap (i64wrap S - i64wrap c) = i64wrap (S - c) := by
  rw [i64wrap_sub_right, i64wrap_sub_left]

theorem i64wrap_update_chain (S c n : Int) :
    i64wrap (i64wrap (i64wrap S - i64wrap c) + i64wrap n) = i64wrap (S - c + n) := by
  rw [i64wrap_add_right, i64wrap_add_left]
  apply i64wrap_congr
  rw [Int.add_emod, Int.sub_emod, i64wrap_emod, i64wrap_emod, ← Int.sub_emod,
    ← Int.add_emod]

/-- C3 (amended): on every Order state reachable from the default value by
executing commands and applying the events they emit, `total_amount` is the
two's-complement `i64` wrap of `Σ item.quantity · item.unit_price` over the
stored items (the two agree modulo `2^64`); in particular `total_amount`
equals the exact sum whenever that sum fits in `i64`. Because the arithmetic
is unchecked, the exact equality can fail under `i64` overflow. -/
theorem order_total_amount_wrapped_sum (o : Order) (h : Order.Reachable o) :
    o.total_amount.cents = i64wrap (itemsTotalInt o.items) ∧
    (inI64 (itemsTotalInt o.items) → o.total_amount.cents = itemsTotalInt o.items) := by
  suffices hmain : o.total_amount.cents = i64wrap (itemsTotalInt o.items) by
    exact ⟨hmain, fun hin => by rw [hmain, i64wrap_eq_self hin]⟩
  induction h with
  | init => norm_num [Order.apply_events, itemsTotalInt, Money.zero, i64wrap]
  | @step o c evs hreach hx ih =>
    cases c with
    | create oid cid t =>
      simp only [Order.execute, Order.create] at hx
      split at hx
      · simp at hx
      · cases hx
        simpa [Order.apply_events, Order.apply, Order.apply_order_created] using ih
    | addItem item =>
      simp only [Order.execute, Order.add_item] at hx
      split at hx
      · simp at hx
      split at hx
      · simp at hx
      split at hx
      · simp at hx
      split at hx
      case _ existing heq =>
        cases hx
        simp only [Order.apply_events, List.foldl_cons, List.foldl_nil, Order.apply,
          Order.apply_item_quantity_updated, heq]
        rw [itemsTotalInt_setQuantity_of_lookup_some _ heq]
        simp only [Money.add, Money.subtract, OrderItem.total_price, Money.multiply, ih]
        rw [i64wrap_update_chain]
        congr 1
        simp only [itemContribution]
        ring
      case _ heq =>
        cases hx
        simp only [Order.apply_events, List.foldl_cons, List.foldl_nil, Order.apply,
          Order.apply_item_added]
        rw [itemsTotalInt_insert_of_lookup_none _ heq]
        simp only [Money.add, OrderItem.total_price, Money.multiply, ih]
        rw [i64wrap_add_chain]
        congr 1
        simp only [itemContribution]
        ring
    | removeItem pid =>
      simp only [Order.execute, Order.remove_item] at hx
      split at hx
      · simp at hx
      split at hx
      · simp at hx
      case _ hlk =>
        cases hx
        rw [Bool.not_eq_true, Option.isNone_eq_false_iff, Option.isSome_iff_exists] at hlk
        obtain ⟨existing, heq⟩ := hlk
        simp only [Order.apply_events, List.foldl_cons, List.foldl_nil, Order.apply,
          Order.apply_item_removed, heq]
        rw [itemsTotalInt_erase_of_lookup_some heq]
        simp only [Money.subtract, OrderItem.total_price, Money.multiply, ih]
        rw [i64wrap_sub_chain]
        congr 1
        simp only [itemContribution]
        ring
    | updateItemQuantity pid q =>
      simp only [Order.execute, Order.update_item_quantity] at hx
      split at hx
      · simp at hx
      split at hx
      · simp at hx
      case _ existing heq =>
        split at hx
        · cases hx
          simp only [Order.apply_events, List.foldl_cons, List.foldl_nil, Order.apply,
            Order.apply_item_removed, heq]
          rw [itemsTotalInt_erase_of_lookup_some heq]
          simp only [Money.subtract, OrderItem.total_price, Money.multiply, ih]
          rw [i64wrap_sub_chain]
          congr 1
          simp only [itemContribution]
          ring
        split at hx
        · cases hx
          simp only [Order.apply_events, List.foldl_cons, List.foldl_nil, Order.apply,
            Order.apply_item_quantity_updated, heq]
          rw [itemsTotalInt_setQuantity_of_lookup_some _ heq]
          simp only [Money.add, Money.subtract, OrderItem.total_price, Money.multiply, ih]
          rw [i64wrap_update_chain]
          congr 1
          simp only [itemContribution]
          ring
        · cases hx
          simpa [Order.apply_events] using ih
    | submit t =>
      simp only [Order.execute, Order.submit] at hx
      split at hx
      · simp at hx
      split at hx
      · simp at hx
      cases hx
      simpa [Order.apply_events, Order.apply] using ih
    | markReserved t rid =>
      simp only [Order.execute, Order.mark_reserved] at hx
      split at hx
      · simp at hx
      cases hx
      simpa [Order.apply_events, Order.apply] using ih
    | startProcessing t pid =>
      simp only [Order.execute, Order.start_processing] at hx
      split at hx
      · simp at hx
      cases hx
      simpa [Order.apply_events, Order.apply] using ih
    | complete t tn =>
      simp only [Order.execute, Order.complete] at hx
      split at hx
      · simp at hx
      cases hx
      simpa [Order.apply_events, Order.apply] using ih
    | cancel t r cb =>
      simp only [Order.execute, Order.cancel] at hx
      split at hx
      · simp at hx
      cases hx
      simpa [Order.apply_events, Order.apply] using ih

/-- A command-reachable order holding one item whose exact total, `2^64`
cents, overflows `i64`; the cached total wraps to `0`. -/
def oC3big : Order :=
  Order.apply_events {} [.itemAdded ⟨"SKU-BIG", "Bulk", 4, ⟨2 ^ 62⟩⟩]

/-- C3 counterexample: a reachable order (add 4 units at `2^62` cents, a
price the validation accepts since it only requires positivity) whose
`total_amount` is `0` while the exact item sum is `2^64`: under unchecked
`i64` arithmetic the cached total is not the exact sum. -/
theorem order_total_amount_overflow :
    Order.Reachable oC3big ∧
    oC3big.total_amount.cents = 0 ∧
    itemsTotalInt oC3big.items = 2 ^ 64 ∧
    oC3big.total_amount.cents ≠ itemsTotalInt oC3big.items := by
  refine ⟨?_, by decide, by decide, by decide⟩
  exact Order.Reachable.step Order.Reachable.init
    (show Order.execute {} (.addItem ⟨"SKU-BIG", "Bulk", 4, ⟨2 ^ 62⟩⟩)
        = .ok [.itemAdded ⟨"SKU-BIG", "Bulk", 4, ⟨2 ^ 62⟩⟩] by decide)

/-- A small command-reachable order for the C3 witness. -/
def oC3small : Order :=
  Order.apply_events {} [.itemAdded ⟨"SKU-001", "Widget", 2, ⟨1000⟩⟩]

/-- Witness for C3 at a reachable one-item order (2 × $10.00). -/
theorem order_total_amount_wrapped_sum_witness :
    oC3small.total_amount.cents = i64wrap (itemsTotalInt oC3small.items) ∧
    (inI64 (itemsTotalInt oC3small.items) →
      oC3small.total_amount.cents = itemsTotalInt oC3small.items) :=
  order_total_amount_wrapped_sum oC3small
    (Order.Reachable.step Order.Reachable.init
      (show Order.execute {} (.addItem ⟨"SKU-001", "Widget", 2, ⟨1000⟩⟩)
          = .ok [.itemAdded ⟨"SKU-001", "Widget", 2, ⟨1000⟩⟩] by decide))

/-! ## Event store (`event-store/src/event.rs`, `store.rs`, `memory.rs`)

`EventId`/`AggregateId` are opaque `Nat`s, `Version` is an `Int` (`i64`),
timestamps are opaque `Int`s, and the JSON payload/metadata — which the
store never inspects — are opaque `Nat` values. -/

structure EventEnvelope where
  event_id : Nat
  event_type : String
  aggregate_id : Nat
  aggregate_type : String
  version : Int
  timestamp : Int
  payload : Nat := 0
  metadata : List (String × Nat) := []
deriving DecidableEq, Repr

/-- `EventStoreError` from `event-store/src/error.rs`: its five variants.
There is no validation variant; backend error payloads are reduced to their
message strings. -/
inductive EventStoreError where
  | concurrencyConflict (aggregate_id : Nat) (expected actual : Int)
  | aggregateNotFound (aggregate_id : Nat)
  | database (message : String)
  | migration (message : String)
  | serialization (message : String)
deriving DecidableEq, Repr

def EventStoreError.isConcurrencyConflict : EventStoreError → Bool
  | .concurrencyConflict _ _ _ => true
  | _ => false

def EventStoreError.isSerialization : EventStoreError → Bool
  | .serialization _ => true
  | _ => false

/-- `AppendValidationError` from `store.rs`. -/
structure AppendValidationError where
  message : String
deriving DecidableEq, Repr

/-- The message of `store.rs`'s sequential-versions validation failure. -/
def sequentialMsg (expected got : Int) : String :=
  "Event versions must be sequential. Expected " ++ toString expected
    ++ ", got " ++ toString got

/-- The same-aggregate pass of `validate_events_for_append`. -/
def check_same_aggregate (first : EventEnvelope) :
    List EventEnvelope → Except AppendValidationError Unit
  | [] => .ok ()
  | e :: rest =>
    if e.aggregate_id ≠ first.aggregate_id then
      .error ⟨"All events must be for the same aggregate"⟩
    else if e.aggregate_type ≠ first.aggregate_type then
      .error ⟨"All events must have the same aggregate type"⟩
    else check_same_aggregate first rest

/-- The sequential-versions pass of `validate_events_for_append`:
`expected` starts at the first event's version and is bumped before each
comparison. -/
def check_sequential (expected : Int) :
    List EventEnvelope → Except AppendValidationError Unit
  | [] => .ok ()
  | e :: rest =>
    if e.version ≠ expected + 1 then .error ⟨sequentialMsg (expected + 1) e.version⟩
    else check_sequential (expected + 1) rest

/-- `validate_events_for_append` from `store.rs`. -/
def validate_events_for_append (events : List EventEnvelope) :
    Except AppendValidationError Unit :=
  match events with
  | [] => .error ⟨"Cannot append empty event list"⟩
  | first :: rest =>
    match check_same_aggregate first rest with
    | .error e => .error e
    | .ok _ => check_sequential first.version rest

/-- `Iterator::max` over a list of versions. -/
def listMax? : List Int → Option Int
  | [] => none
  | x :: xs => some (match listMax? xs with
      | none => x
      | some m => max x m)

/-- The versions of the stored events of one aggregate, in store order. -/
def versionsOf (store : List EventEnvelope) (aggregate_id : Nat) : List Int :=
  (store.filter (fun e => e.aggregate_id == aggregate_id)).map (fun e => e.version)

/-- `memory.rs`: current tail version of an aggregate —
`filter ∘ map version ∘ max`, defaulting to `Version::initial() = 0`. -/
def currentVersionFor (store : List EventEnvelope) (aggregate_id : Nat) : Int :=
  match listMax? (versionsOf store aggregate_id) with
  | some v => v
  | none => 0

/-- The second half of `InMemoryEventStore::append` after the
expected-version check: the unique-constraint simulation and the insert.
Unreachable `[]` cases return the sentinel version `0` exactly as the
source's `unwrap_or(Version::initial())` does. -/
def appendUnchecked (store events : List EventEnvelope) (aggregate_id : Nat)
    (current_version : Int) (expected_version : Option Int) :
    Except EventStoreError Int × List EventEnvelope :=
  let first_new_version := match events.head? with
    | some e => e.version
    | none => 0
  if first_new_version ≤ current_version ∧ current_version ≠ 0 then
    (.error (.concurrencyConflict aggregate_id (expected_version.getD current_version)
        current_version), store)
  else
    let last_version := match events.getLast? with
      | some e => e.version
      | none => 0
    (.ok last_version, store ++ events)

/-- `InMemoryEventStore::append`, returning the result together with the
store after the call (failures leave the store untouched, as every error
path in the source precedes the insert). A validation failure is wrapped
into the `Serialization` variant, mirroring
`EventStoreError::Serialization(serde_json::Error::io(...))`. -/
def appendES (store events : List EventEnvelope) (expected_version : Option Int) :
    Except EventStoreError Int × List EventEnvelope :=
  match validate_events_for_append events with
  | .error e => (.error (.serialization e.message), store)
  | .ok _ =>
    match events with
    | [] => (.error (.serialization ""), store)
    | first :: _ =>
      let aggregate_id := first.aggregate_id
      let current_version := currentVersionFor store aggregate_id
      match expected_version with
      | some expected =>
        if current_version ≠ expected then
          (.error (.concurrencyConflict aggregate_id expected current_version), store)
        else appendUnchecked store events aggregate_id current_version (some expected)
      | none => appendUnchecked store events aggregate_id current_version none

/-- `get_events_for_aggregate`: filter by aggregate id, sort by version. -/
def get_events_for_aggregate (store : List EventEnvelope) (aggregate_id : Nat) :
    List EventEnvelope :=
  (store.filter (fun e => e.aggregate_id == aggregate_id)).mergeSort
    (fun a b => decide (a.version ≤ b.version))

def isConflict : Except EventStoreError Int → Bool
  | .error (.concurrencyConflict _ _ _) => true
  | _ => false

/-- Stores reachable from the empty store by successful `append` calls. -/
inductive ReachableStore : List EventEnvelope → Prop
  | nil : ReachableStore []
  | step {s events : List EventEnvelope} {expected : Option Int} {v : Int}
      {s' : List EventEnvelope} :
      ReachableStore s → appendES s events expected = (.ok v, s') →
      ReachableStore s'

/-- Stores reachable from the empty store by successful `append` calls in
which every batch starts exactly at the aggregate's current tail version
plus one — the discipline every caller in the repository
(`CommandHandler::execute`, `SagaCoordinator::append_saga_event`) follows. -/
inductive SeqReachableStore : List EventEnvelope → Prop
  | nil : SeqReachableStore []
  | step {s events : List EventEnvelope} {expected : Option Int} {v : Int}
      {s' : List EventEnvelope} {first : EventEnvelope} :
      SeqReachableStore s →
      events.head? = some first →
      first.version = currentVersionFor s first.aggregate_id + 1 →
      appendES s events expected = (.ok v, s') →
      SeqReachableStore s'

/-! ## Claim C5: malformed batches -/

/-- C5 (amended): `append` on an empty batch — and on any malformed batch
(non-consecutive versions, mixed aggregate ids or aggregate types) — fails
before touching storage, leaving the store unchanged, but the error is of
the `Serialization` kind, wrapping the validation message: the
`EventStoreError` enum has no `ValidationError` variant. -/
theorem append_invalid_batch_serialization (store events : List EventEnvelope)
    (expected : Option Int) (e : AppendValidationError)
    (h : validate_events_for_append events = .error e) :
    appendES store events expected = (.error (.serialization e.message), store) := by
  simp [appendES, h]

/-- C5 counterexample: appending the empty batch yields the `Serialization`
variant (with the validation message), not a `ValidationError` kind — no
such variant exists in `EventStoreError` — and leaves the store unchanged. -/
theorem append_empty_batch_error_kind :
    (appendES [] [] none).1 = .error (.serialization "Cannot append empty event list") ∧
    (appendES [] [] none).2 = [] ∧
    EventStoreError.isSerialization
      (.serialization "Cannot append empty event list") = true ∧
    EventStoreError.isConcurrencyConflict
      (.serialization "Cannot append empty event list") = false := by
  refine ⟨by decide, by decide, by decide, by decide⟩

def envC5a : EventEnvelope := ⟨1, "E1", 7, "Order", 1, 0, 0, []⟩

def envC5b : EventEnvelope := ⟨2, "E2", 7, "Order", 3, 0, 0, []⟩

/-- Witness for C5 on a non-consecutive batch `[v1, v3]`: the failure is a
`Serialization`-wrapped sequential-versions message and the store (here one
holding `envC5a`) is unchanged. -/
theorem append_invalid_batch_serialization_witness :
    appendES [envC5a] [envC5a, envC5b] none
      = (.error (.serialization (sequentialMsg 2 3)), [envC5a]) :=
  append_invalid_batch_serialization [envC5a] [envC5a, envC5b] none
    ⟨sequentialMsg 2 3⟩ (by decide)

/-! ## Claim C1: concurrency-conflict behaviour of append -/

theorem listMax?_le_of_mem {l : List Int} {x : Int} (hx : x ∈ l) :
    ∃ m, listMax? l = some m ∧ x ≤ m := by
  induction l with
  | nil => simp at hx
  | cons y ys ih =>
    rcases List.mem_cons.mp hx with h | h
    · subst h
      refine ⟨_, rfl, ?_⟩
      cases hm : listMax? ys <;> simp [hm, le_max_iff]
    · obtain ⟨m, hm, hxm⟩ := ih h
      refine ⟨_, rfl, ?_⟩
      rw [hm]
      simp [le_max_iff]
      right
      exact hxm

theorem le_currentVersionFor {store : List EventEnvelope} {e : EventEnvelope}
    (he : e ∈ store) {aggregate_id : Nat} (hA : e.aggregate_id = aggregate_id) :
    e.version ≤ currentVersionFor store aggregate_id := by
  have hmem : e.version ∈ versionsOf store aggregate_id := by
    unfold versionsOf
    exact List.mem_map_of_mem _ (List.mem_filter.mpr ⟨he, by simp [hA]⟩)
  obtain ⟨m, hm, hle⟩ := listMax?_le_of_mem hmem
  unfold currentVersionFor
  rw [hm]
  exact hle

/-- A successful `append` passed validation and extended the store with the
whole batch; with `expected_version` provided, the tail matched it and the
unique-constraint check passed. -/
theorem appendES_ok {store events : List EventEnvelope} {expected : Option Int}
    {v : Int} {s' : List EventEnvelope} {first : EventEnvelope}
    (hfirst : events.head? = some first)
    (h : appendES store events expected = (.ok v, s')) :
    validate_events_for_append events = .ok () ∧
    s' = store ++ events ∧
    (∀ e, expected = some e → currentVersionFor store first.aggregate_id = e) ∧
    ¬(first.version ≤ currentVersionFor store first.aggregate_id ∧
      currentVersionFor store first.aggregate_id ≠ 0) := by
  cases hval : validate_events_for_append events with
  | error err => simp only [appendES, hval] at h; simp at h
  | ok u =>
    cases u
    cases events with
    | nil => simp at hfirst
    | cons e0 rest =>
      cases hfirst
      cases expected with
      | none =>
        simp only [appendES, hval, appendUnchecked, List.head?_cons] at h
        split at h
        · simp at h
        case _ hcond =>
          rw [Prod.mk.injEq] at h
          exact ⟨rfl, h.2.symm, by simp, by simpa using hcond⟩
      | some exp =>
        simp only [appendES, hval] at h
        split at h
        · simp at h
        case _ hexp =>
          simp only [appendUnchecked, List.head?_cons] at h
          split at h
          · simp at h
          case _ hcond =>
            rw [Prod.mk.injEq] at h
            refine ⟨rfl, h.2.symm, ?_, by simpa using hcond⟩
            intro e he
            cases he
            exact not_not.mp hexp

/-- C1 (amended): for a batch that passes validation, `append` fails with
`ConcurrencyConflict` exactly when `expected_version` is provided and
differs from the aggregate's current tail, or when the batch's first
version is at most the current tail while that tail is non-zero (the
source's simulation of the unique `(aggregate_id, version)` constraint —
it also fires on non-existent below-tail pairs). Under positive versions
this in particular rejects any batch containing an existing pair, and after
a successful append at expected version `v` a second append for the same
aggregate with `expected_version = v` fails with `ConcurrencyConflict`. -/
theorem append_concurrency_characterization (store events : List EventEnvelope)
    (expected : Option Int) (first : EventEnvelope)
    (hval : validate_events_for_append events = .ok ())
    (hfirst : events.head? = some first) :
    (isConflict (appendES store events expected).1 = true ↔
      (expected ≠ none ∧ expected ≠ some (currentVersionFor store first.aggregate_id)) ∨
      (first.version ≤ currentVersionFor store first.aggregate_id ∧
        currentVersionFor store first.aggregate_id ≠ 0)) ∧
    (∀ v new_version store2 events2 first2,
      expected = some v → 1 ≤ first.version →
      appendES store events expected = (.ok new_version, store2) →
      validate_events_for_append events2 = .ok () →
      events2.head? = some first2 → first2.aggregate_id = first.aggregate_id →
      isConflict (appendES store2 events2 (some v)).1 = true) := by
  constructor
  · cases events with
    | nil => simp at hfirst
    | cons e0 rest =>
      cases hfirst
      cases expected with
      | none =>
        simp only [appendES, hval, appendUnchecked, List.head?_cons, ne_eq,
          not_true_eq_false, false_and, false_or]
        split
        case _ hcond =>
          simp only [isConflict]
          exact iff_of_true (by simp) (by simpa using hcond)
        case _ hcond =>
          simp only [isConflict]
          exact iff_of_false (by simp) (by simpa using hcond)
      | some exp =>
        simp only [appendES, hval]
        by_cases hexp : currentVersionFor store first.aggregate_id = exp
        · rw [if_neg (not_not_intro hexp)]
          simp only [appendUnchecked, List.head?_cons]
          split
          case _ hcond =>
            simp only [isConflict]
            exact iff_of_true (by simp) (Or.inr (by simpa using hcond))
          case _ hcond =>
            simp only [isConflict]
            refine iff_of_false (by simp) ?_
            rintro (⟨-, hne⟩ | hc)
            · exact hne (by rw [hexp])
            · have hcond' : ¬(first.version ≤ currentVersionFor store first.aggregate_id ∧
                  currentVersionFor store first.aggregate_id ≠ 0) := by simpa using hcond
              exact hcond' hc
        · rw [if_pos hexp]
          simp only [isConflict]
          exact iff_of_true (by simp)
            (Or.inl ⟨by simp, by simpa using fun h => hexp h.symm⟩)
  · intro v new_version store2 events2 first2 hv hpos hok hval2 hfirst2 hagg
    subst hv
    obtain ⟨-, hs2, hcur, hcond⟩ := appendES_ok hfirst hok
    have hcurv : currentVersionFor store first.aggregate_id = v := hcur v rfl
    have hgt : v < first.version := by
      rcases le_or_lt first.version (currentVersionFor store first.aggregate_id)
        with hle | hlt
      · have h0 : currentVersionFor store first.aggregate_id = 0 := by
          by_contra h0
          exact hcond ⟨hle, h0⟩
        omega
      · omega
    have hmem : first ∈ store2 := by
      rw [hs2]
      cases events with
      | nil => simp at hfirst
      | cons e0 rest =>
        cases hfirst
        simp
    have hcur2 : first.version ≤ currentVersionFor store2 first.aggregate_id :=
      le_currentVersionFor hmem rfl
    cases events2 with
    | nil => simp at hfirst2
    | cons f0 rest2 =>
      cases hfirst2
      simp only [appendES, hval2]
      rw [hagg, if_pos (by omega)]
      simp [isConflict]

def envV1 : EventEnvelope := ⟨10, "E", 1, "Order", 1, 0, 0, []⟩

def envV5 : EventEnvelope := ⟨11, "E", 1, "Order", 5, 0, 0, []⟩

def envV3 : EventEnvelope := ⟨12, "E", 1, "Order", 3, 0, 0, []⟩

/-- A store reachable by two successful appends whose aggregate-1 versions
are `{1, 5}` — the store never checks that a batch starts at tail + 1. -/
def storeGap : List EventEnvelope := [envV1, envV5]

/-- C1 counterexample: on the reachable store with versions `{1, 5}`,
appending the valid batch `[v3]` with no `expected_version` raises
`ConcurrencyConflict` although no `(aggregate_id, version)` pair of the
batch exists in the store — contradicting the claim's "otherwise no
ConcurrencyConflict is raised". -/
theorem append_conflict_without_existing_pair :
    ReachableStore storeGap ∧
    validate_events_for_append [envV3] = .ok () ∧
    (storeGap.all (fun e =>
      !(e.aggregate_id == envV3.aggregate_id && e.version == envV3.version))) = true ∧
    (appendES storeGap [envV3] none).1 = .error (.concurrencyConflict 1 5 5) := by
  refine ⟨?_, by decide, by decide, by decide⟩
  exact ReachableStore.step
    (ReachableStore.step ReachableStore.nil
      (show appendES [] [envV1] none = (.ok 1, [envV1]) by decide))
    (show appendES [envV1] [envV5] none = (.ok 5, storeGap) by decide)

/-- Witness for C1: the empty store, the batch `[v1]` and
`expected_version = 0`. -/
theorem append_concurrency_characterization_witness :
    (isConflict (appendES [] [envV1] (some 0)).1 = true ↔
      ((some 0 : Option Int) ≠ none ∧
        (some 0 : Option Int) ≠ some (currentVersionFor [] envV1.aggregate_id)) ∨
      (envV1.version ≤ currentVersionFor [] envV1.aggregate_id ∧
        currentVersionFor [] envV1.aggregate_id ≠ 0)) ∧
    (∀ v new_version store2 events2 first2,
      (some 0 : Option Int) = some v → 1 ≤ envV1.version →
      appendES [] [envV1] (some 0) = (.ok new_version, store2) →
      validate_events_for_append events2 = .ok () →
      events2.head? = some first2 → first2.aggregate_id = envV1.aggregate_id →
      isConflict (appendES store2 events2 (some v)).1 = true) :=
  append_concurrency_characterization [] [envV1] (some 0) envV1 (by decide) rfl

/-! ## Claim C2: per-aggregate version sequences -/

theorem check_same_aggregate_ok {first : EventEnvelope} {rest : List EventEnvelope}
    (h : check_same_aggregate first rest = .ok ()) :
    ∀ e ∈ rest, e.aggregate_id = first.aggregate_id := by
  induction rest with
  | nil => simp
  | cons e0 tl ih =>
    simp only [check_same_aggregate] at h
    split at h
    · exact absurd h (by simp)
    case _ hid =>
      split at h
      · exact absurd h (by simp)
      case _ htype =>
        intro e he
        rcases List.mem_cons.mp he with h0 | h0
        · subst h0
          exact not_not.mp hid
        · exact ih h e h0

theorem check_sequential_ok {v : Int} {rest : List EventEnvelope}
    (h : check_sequential v rest = .ok ()) :
    rest.map (fun e => e.version)
      = (List.range rest.length).map (fun (i : Nat) => v + 1 + (i : Int)) := by
  induction rest generalizing v with
  | nil => simp
  | cons e0 tl ih =>
    simp only [check_sequential] at h
    split at h
    · exact absurd h (by simp)
    case _ hver =>
      have hv0 : e0.version = v + 1 := not_not.mp hver
      have htl := ih h
      simp only [List.map_cons, List.length_cons]
      rw [List.range_succ_eq_map, List.map_cons, List.map_map, htl, List.cons.injEq]
      refine ⟨by simpa using hv0, ?_⟩
      apply List.map_congr_left
      intro i hi
      simp only [Function.comp_apply]
      push_cast
      ring

theorem validate_ok_structure {events : List EventEnvelope}
    (h : validate_events_for_append events = .ok ()) :
    ∃ first rest, events = first :: rest ∧
      (∀ e ∈ events, e.aggregate_id = first.aggregate_id) ∧
      events.map (fun e => e.version)
        = (List.range events.length).map (fun (i : Nat) => first.version + (i : Int)) := by
  cases events with
  | nil => simp [validate_events_for_append] at h
  | cons first rest =>
    simp only [validate_events_for_append] at h
    cases hsame : check_same_aggregate first rest with
    | error e => simp [hsame] at h
    | ok u =>
      cases u
      simp only [hsame] at h
      refine ⟨first, rest, rfl, ?_, ?_⟩
      · intro e he
        rcases List.mem_cons.mp he with h0 | h0
        · subst h0
          rfl
        · exact check_same_aggregate_ok hsame e h0
      · have hseq := check_sequential_ok h
        simp only [List.map_cons, List.length_cons]
        rw [List.range_succ_eq_map, List.map_cons, List.map_map, hseq, List.cons.injEq]
        refine ⟨by simp, ?_⟩
        apply List.map_congr_left
        intro i hi
        simp only [Function.comp_apply]
        push_cast
        ring

theorem listMax?_mem {l : List Int} {m : Int} (h : listMax? l = some m) : m ∈ l := by
  induction l generalizing m with
  | nil => simp [listMax?] at h
  | cons y ys ih =>
    simp only [listMax?] at h
    injection h with h
    cases hys : listMax? ys with
    | none =>
      simp only [hys] at h
      subst h
      exact List.mem_cons_self _ _
    | some m' =>
      simp only [hys] at h
      rcases le_total y m' with hle | hle
      · rw [max_eq_right hle] at h
        subst h
        exact List.mem_cons_of_mem _ (ih hys)
      · rw [max_eq_left hle] at h
        subst h
        exact List.mem_cons_self _ _

theorem listMax?_eq_of_max {l : List Int} {m : Int} (hm : m ∈ l)
    (hle : ∀ x ∈ l, x ≤ m) : listMax? l = some m := by
  induction l with
  | nil => simp at hm
  | cons y ys ih =>
    simp only [listMax?]
    rcases List.mem_cons.mp hm with h0 | h0
    · subst h0
      cases hys : listMax? ys with
      | none => rfl
      | some m' =>
        have hm' : m' ∈ ys := listMax?_mem hys
        have hle' : m' ≤ m := hle m' (List.mem_cons_of_mem _ hm')
        simp [max_eq_left hle']
    · have hys := ih h0 (fun x hx => hle x (List.mem_cons_of_mem _ hx))
      have hy : y ≤ m := hle y (List.mem_cons_self _ _)
      simp [hys, max_eq_right hy]

/-- The consecutive versions `1, 2, …, n`. -/
def range1 (n : Nat) : List Int := (List.range n).map (fun (i : Nat) => (i : Int) + 1)

theorem range1_length (n : Nat) : (range1 n).length = n := by simp [range1]

theorem currentVersionFor_of_range1 {s : List EventEnvelope} {aggregate_id : Nat}
    {n : Nat} (h : versionsOf s aggregate_id = range1 n) :
    currentVersionFor s aggregate_id = (n : Int) := by
  unfold currentVersionFor
  rw [h]
  cases n with
  | zero => simp [range1, listMax?]
  | succ k =>
    have hmem : ((k : Int) + 1) ∈ range1 (k + 1) :=
      List.mem_map.mpr ⟨k, List.mem_range.mpr (Nat.lt_succ_self k), rfl⟩
    have hle : ∀ x ∈ range1 (k + 1), x ≤ (k : Int) + 1 := by
      intro x hx
      obtain ⟨i, hi, rfl⟩ := List.mem_map.mp hx
      rw [List.mem_range] at hi
      omega
    simp only [listMax?_eq_of_max hmem hle]
    push_cast
    ring

theorem range1_append (n k : Nat) :
    range1 n ++ (List.range k).map (fun (i : Nat) => (n : Int) + 1 + (i : Int))
      = range1 (n + k) := by
  unfold range1
  rw [List.range_add, List.map_append, List.map_map]
  congr 1
  apply List.map_congr_left
  intro i hi
  simp only [Function.comp_apply]
  push_cast
  ring

/-- The per-aggregate invariant maintained by tail-aligned appends: the
in-store versions of every aggregate are exactly `1, 2, …, n` in order. -/
theorem seq_reachable_versions {s : List EventEnvelope} (hs : SeqReachableStore s)
    (aggregate_id : Nat) :
    versionsOf s aggregate_id = range1 (versionsOf s aggregate_id).length := by
  induction hs with
  | nil => simp [versionsOf, range1]
  | @step s events expected v s' first hs hhead hver happ ih =>
    obtain ⟨hval, hs', -, -⟩ := appendES_ok hhead happ
    subst hs'
    obtain ⟨f2, rest, hevents, hsameid, hversions⟩ := validate_ok_structure hval
    have hf : f2 = first := by
      rw [hevents] at hhead
      simpa using hhead
    subst hf
    unfold versionsOf at ih ⊢
    rw [List.filter_append, List.map_append]
    by_cases hA : f2.aggregate_id = aggregate_id
    · have hfe : events.filter (fun e => e.aggregate_id == aggregate_id) = events := by
        rw [List.filter_eq_self]
        intro e he
        simp [hsameid e he, hA]
      rw [hfe]
      have hcur : currentVersionFor s aggregate_id
          = (((s.filter (fun e => e.aggregate_id == aggregate_id)).map
              (fun e => e.version)).length : Int) := by
        apply currentVersionFor_of_range1
        simpa [versionsOf] using ih
      have hversions' : events.map (fun e => e.version)
          = (List.range events.length).map
              (fun (i : Nat) =>
                ((((s.filter (fun e => e.aggregate_id == aggregate_id)).map
                  (fun e => e.version)).length : Int)) + 1 + (i : Int)) := by
        rw [hversions]
        apply List.map_congr_left
        intro i hi
        rw [hver, hA, hcur]
      rw [ih, hversions', range1_append]
      rw [range1_length]
    · have hfe : events.filter (fun e => e.aggregate_id == aggregate_id) = [] := by
        rw [List.filter_eq_nil_iff]
        intro e he
        simp [hsameid e he, hA]
      rw [hfe]
      simpa using ih

theorem range1_pairwise_le (n : Nat) : (range1 n).Pairwise (· ≤ ·) := by
  unfold range1
  rw [List.pairwise_map]
  refine (List.pairwise_lt_range n).imp ?_
  intro a b h
  dsimp only
  omega

/-- C2 (amended): for every store reachable from the empty store by
successful appends whose batches start at the aggregate’s current tail
version plus one (the discipline of every caller in the repository), and
for every aggregate, `get_events_for_aggregate` returns events whose
versions are exactly `1, 2, …, n` in ascending order with no gaps and no
duplicates. The store alone does not enforce this: an append whose batch
starts above tail + 1 succeeds and leaves a gap. -/
theorem get_events_versions_consecutive (s : List EventEnvelope)
    (hs : SeqReachableStore s) (aggregate_id : Nat) :
    (get_events_for_aggregate s aggregate_id).map (fun e => e.version)
      = range1 (get_events_for_aggregate s aggregate_id).length := by
  have hinv := seq_reachable_versions hs aggregate_id
  have hsorted : (s.filter (fun e => e.aggregate_id == aggregate_id)).Pairwise
      (fun a b => (decide (a.version ≤ b.version)) = true) := by
    have hp : (versionsOf s aggregate_id).Pairwise (· ≤ ·) := by
      rw [hinv]
      exact range1_pairwise_le _
    unfold versionsOf at hp
    rw [List.pairwise_map] at hp
    exact hp.imp (fun h => by simpa using h)
  unfold get_events_for_aggregate
  rw [List.mergeSort_of_sorted hsorted]
  simpa [versionsOf] using hinv

/-- C2 counterexample: appending `[v5]` to the empty store succeeds (no
check relates a batch to the current tail when `expected_version` is
absent, and even with it only the tail itself is compared), so a store
whose only aggregate-1 event has version 5 is reachable;
`get_events_for_aggregate` then returns versions `[5]`, not `[1]`. -/
theorem get_events_versions_gap :
    ReachableStore [envV5] ∧
    (get_events_for_aggregate [envV5] 1).map (fun e => e.version) = [5] ∧
    (get_events_for_aggregate [envV5] 1).map (fun e => e.version)
      ≠ range1 (get_events_for_aggregate [envV5] 1).length := by
  have hget : get_events_for_aggregate [envV5] 1 = [envV5] := by
    unfold get_events_for_aggregate
    rw [show ([envV5] : List EventEnvelope).filter
        (fun e => e.aggregate_id == 1) = [envV5] from rfl]
    exact List.mergeSort_of_sorted (by simp)
  refine ⟨?_, ?_, ?_⟩
  · exact ReachableStore.step ReachableStore.nil
      (show appendES [] [envV5] none = (.ok 5, [envV5]) by decide)
  · rw [hget]
    decide
  · rw [hget]
    decide

def envW1 : EventEnvelope := ⟨21, "E", 3, "Order", 1, 0, 0, []⟩

def envW2 : EventEnvelope := ⟨22, "E", 3, "Order", 2, 0, 0, []⟩

def storeSeq : List EventEnvelope := [envW1, envW2]

/-- Witness for C2 on a two-append store whose batches start at tail + 1. -/
theorem get_events_versions_consecutive_witness :
    (get_events_for_aggregate storeSeq 3).map (fun e => e.version)
      = range1 (get_events_for_aggregate storeSeq 3).length := by
  have h1 : SeqReachableStore [envW1] :=
    SeqReachableStore.step SeqReachableStore.nil
      (show ([envW1] : List EventEnvelope).head? = some envW1 from rfl)
      (show envW1.version = currentVersionFor [] envW1.aggregate_id + 1 by decide)
      (show appendES [] [envW1] (some 0) = (.ok 1, [envW1]) by decide)
  have h2 : SeqReachableStore storeSeq :=
    SeqReachableStore.step h1
      (show ([envW2] : List EventEnvelope).head? = some envW2 from rfl)
      (show envW2.version = currentVersionFor [envW1] envW2.aggregate_id + 1 by decide)
      (show appendES [envW1] [envW2] (some 1) = (.ok 2, storeSeq) by decide)
  exact get_events_versions_consecutive storeSeq h2 3

/-! ## Projection engine (`projections/src/projection.rs`, `processor.rs`) -/

structure ProjectionPosition where
  events_processed : Nat
deriving DecidableEq, Repr

def ProjectionPosition.zero : ProjectionPosition := ⟨0⟩

/-- `ProjectionPosition::advance`. -/
def ProjectionPosition.advance (p : ProjectionPosition) : ProjectionPosition :=
  ⟨p.events_processed + 1⟩

/-- A registered projection as the processor sees it: its
`position.events_processed` together with a count of `handle` calls made so
far. Per the `Projection` contract in `projection.rs` — implemented by every
view, see `covHandle_advances_position` — `handle` advances the position
exactly once per delivered event. -/
structure TrackedProjection where
  events_processed : Nat
  handle_calls : Nat
deriving DecidableEq, Repr

def TrackedProjection.handle (p : TrackedProjection) : TrackedProjection :=
  ⟨p.events_processed + 1, p.handle_calls + 1⟩

/-- One step of `run_catch_up`'s loop body: deliver the event with ordinal
`i` to a projection iff `position.events_processed < i`. -/
def deliverAt (i : Nat) (p : TrackedProjection) : TrackedProjection :=
  if p.events_processed < i then p.handle else p

/-- `ProjectionProcessor::run_catch_up` over a store streaming `n` events:
`event_index` runs from 1 to `n`, and each event is delivered to every
registered projection whose position is behind the ordinal. -/
def run_catch_up (n : Nat) (ps : List TrackedProjection) : List TrackedProjection :=
  (List.range n).foldl (fun ps i => ps.map (deliverAt (i + 1))) ps

/-- `run_catch_up` restricted to a single projection. -/
def runOne (n : Nat) (p : TrackedProjection) : TrackedProjection :=
  (List.range n).foldl (fun p i => deliverAt (i + 1) p) p

theorem run_catch_up_eq_map (n : Nat) (ps : List TrackedProjection) :
    run_catch_up n ps = ps.map (runOne n) := by
  unfold run_catch_up runOne
  generalize List.range n = l
  induction l generalizing ps with
  | nil => simp
  | cons i tl ih =>
    simp only [List.foldl_cons]
    rw [ih, List.map_map]
    rfl

theorem runOne_succ (n : Nat) (p : TrackedProjection) :
    runOne (n + 1) p = deliverAt (n + 1) (runOne n p) := by
  unfold runOne
  rw [List.range_succ, List.foldl_append]
  rfl

theorem runOne_pos (n : Nat) (p : TrackedProjection) :
    (runOne n p).events_processed = max p.events_processed n := by
  induction n with
  | zero => simp [runOne]
  | succ k ih =>
    rw [runOne_succ]
    unfold deliverAt
    split
    case _ h =>
      rw [ih] at h
      simp only [TrackedProjection.handle, ih]
      omega
    case _ h =>
      rw [ih] at h
      rw [ih]
      omega

theorem runOne_id_of_ge {n : Nat} {p : TrackedProjection}
    (h : n ≤ p.events_processed) : runOne n p = p := by
  induction n with
  | zero => rfl
  | succ k ih =>
    rw [runOne_succ, ih (by omega)]
    unfold deliverAt
    rw [if_neg (by omega)]

/-- C7: for every store content (streaming `n` events) and every set of
registered projections whose positions were only advanced by deliveries
from this processor (hence are at most `n`): after `run_catch_up` completes,
each projection's `position.events_processed` equals the store's event
count, and a second `run_catch_up` leaves every projection — including its
count of `handle` calls — unchanged, i.e. performs no further `handle`
calls. -/
theorem run_catch_up_positions (n : Nat) (ps : List TrackedProjection)
    (hstart : ∀ p ∈ ps, p.events_processed ≤ n) :
    (∀ p ∈ run_catch_up n ps, p.events_processed = n) ∧
    run_catch_up n (run_catch_up n ps) = run_catch_up n ps := by
  constructor
  · intro p hp
    rw [run_catch_up_eq_map] at hp
    obtain ⟨q, hq, rfl⟩ := List.mem_map.mp hp
    rw [runOne_pos]
    have := hstart q hq
    omega
  · rw [run_catch_up_eq_map, run_catch_up_eq_map, List.map_map]
    apply List.map_congr_left
    intro q hq
    simp only [Function.comp_apply]
    apply runOne_id_of_ge
    rw [runOne_pos]
    omega

/-- Witness for C7: two projections at positions 0 and 2 over a 3-event
store both end at position 3, and a second catch-up is a no-op. -/
theorem run_catch_up_positions_witness :
    (∀ p ∈ run_catch_up 3 [⟨0, 0⟩, ⟨2, 2⟩], p.events_processed = 3) ∧
    run_catch_up 3 (run_catch_up 3 [⟨0, 0⟩, ⟨2, 2⟩])
      = run_catch_up 3 [⟨0, 0⟩, ⟨2, 2⟩] :=
  run_catch_up_positions 3 [⟨0, 0⟩, ⟨2, 2⟩] (by decide)

/-! ## `CustomerOrdersView` (`views/customer_orders.rs`)

Embedded to exhibit that the repository's projections satisfy the contract
assumed above: `handle` bumps the position exactly once on every path. The
serde decode of the payload is modelled by a typed `payload` field. -/

structure CustomerOrdersSummary where
  customer_id : Nat
  total_orders : Nat
  active_orders : Nat
  completed_orders : Nat
  cancelled_orders : Nat
  total_spent : Money
  order_ids : List Nat
deriving DecidableEq, Repr

/-- Per-order item tracker: product id ↦ (quantity, unit_price). -/
abbrev ItemTracker := List (String × (Nat × Money))

def trackerLookup : ItemTracker → String → Option (Nat × Money)
  | [], _ => none
  | (k, v) :: rest, key => if k = key then some v else trackerLookup rest key

def trackerInsert : ItemTracker → String → Nat × Money → ItemTracker
  | [], key, val => [(key, val)]
  | (k, v) :: rest, key, val =>
    if k = key then (key, val) :: rest else (k, v) :: trackerInsert rest key val

def trackerErase : ItemTracker → String → ItemTracker
  | [], _ => []
  | (k, v) :: rest, key => if k = key then rest else (k, v) :: trackerErase rest key

def trackerSetQty : ItemTracker → String → Nat → ItemTracker
  | [], _, _ => []
  | (k, v) :: rest, key, q =>
    if k = key then (k, (q, v.2)) :: rest else (k, v) :: trackerSetQty rest key q

/-- `OrderItemTracker::total`: fold of `price.multiply(qty)` over the map. -/
def trackerTotal (t : ItemTracker) : Money :=
  t.foldl (fun acc kv => acc.add (kv.2.2.multiply kv.2.1)) Money.zero

def alistLookup {β : Type} : List (Nat × β) → Nat → Option β
  | [], _ => none
  | (k, v) :: rest, key => if k = key then some v else alistLookup rest key

def alistInsert {β : Type} : List (Nat × β) → Nat → β → List (Nat × β)
  | [], key, val => [(key, val)]
  | (k, v) :: rest, key, val =>
    if k = key then (key, val) :: rest else (k, v) :: alistInsert rest key val

structure CustomerOrdersState where
  customers : List (Nat × CustomerOrdersSummary)
  order_to_customer : List (Nat × Nat)
  order_items : List (Nat × ItemTracker)
  position : ProjectionPosition
deriving DecidableEq, Repr

/-- An event envelope as `handle` consumes it, with the payload decoded. -/
structure DecodedEvent where
  aggregate_type : String
  aggregate_id : Nat
  payload : OrderEvent
deriving DecidableEq, Repr

/-- The per-event state update of `CustomerOrdersView::handle` (the match on
the decoded order event). Counter decrements are `saturating_sub`, which
`Nat` subtraction models exactly. -/
def covApply (st : CustomerOrdersState) (order_id : Nat) : OrderEvent → CustomerOrdersState
  | .orderCreated data =>
    let customer_id := data.customer_id
    let entry := (alistLookup st.customers customer_id).getD
      ⟨customer_id, 0, 0, 0, 0, Money.zero, []⟩
    let entry' := { entry with
      total_orders := entry.total_orders + 1,
      active_orders := entry.active_orders + 1,
      order_ids := entry.order_ids ++ [order_id] }
    { st with
      order_to_customer := alistInsert st.order_to_customer order_id customer_id,
      order_items := alistInsert st.order_items order_id [],
      customers := alistInsert st.customers customer_id entry' }
  | .itemAdded data =>
    match alistLookup st.order_items order_id with
    | some tracker =>
      let tracker' := trackerInsert tracker data.product_id (data.quantity, data.unit_price)
      { st with order_items := alistInsert st.order_items order_id tracker' }
    | none => st
  | .itemRemoved data =>
    match alistLookup st.order_items order_id with
    | some tracker =>
      let tracker' := trackerErase tracker data.product_id
      { st with order_items := alistInsert st.order_items order_id tracker' }
    | none => st
  | .itemQuantityUpdated data =>
    match alistLookup st.order_items order_id with
    | some tracker =>
      match trackerLookup tracker data.product_id with
      | some _ =>
        let tracker' := trackerSetQty tracker data.product_id data.new_quantity
        { st with order_items := alistInsert st.order_items order_id tracker' }
      | none => st
    | none => st
  | .orderCompleted _ =>
    match alistLookup st.order_to_customer order_id with
    | some customer_id =>
      let order_total := ((alistLookup st.order_items order_id).map
        trackerTotal).getD Money.zero
      match alistLookup st.customers customer_id with
      | some customer =>
        let customer' := { customer with
          active_orders := customer.active_orders - 1,
          completed_orders := customer.completed_orders + 1,
          total_spent := customer.total_spent.add order_total }
        { st with customers := alistInsert st.customers customer_id customer' }
      | none => st
    | none => st
  | .orderCancelled _ =>
    match alistLookup st.order_to_customer order_id with
    | some customer_id =>
      match alistLookup st.customers customer_id with
      | some customer =>
        let customer' := { customer with
          active_orders := customer.active_orders - 1,
          cancelled_orders := customer.cancelled_orders + 1 }
        { st with customers := alistInsert st.customers customer_id customer' }
      | none => st
    | none => st
  | .orderSubmitted _ => st
  | .orderReserved _ => st
  | .orderProcessing _ => st

/-- `CustomerOrdersView::handle`: non-Order events only advance the
position; Order events apply `covApply` and then advance the position. -/
def covHandle (st : CustomerOrdersState) (event : DecodedEvent) : CustomerOrdersState :=
  if event.aggregate_type ≠ "Order" then
    { st with position := st.position.advance }
  else
    let st' := covApply st event.aggregate_id event.payload
    { st' with position := st'.position.advance }

theorem covApply_position (st : CustomerOrdersState) (order_id : Nat)
    (ev : OrderEvent) : (covApply st order_id ev).position = st.position := by
  cases ev <;> simp only [covApply] <;> (repeat' split) <;> rfl

/-- `CustomerOrdersView::handle` advances the position exactly once on every
path — for non-Order events, ignored events and every update branch — which
is the contract `run_catch_up`'s ordinal comparison relies on. -/
theorem covHandle_advances_position (st : CustomerOrdersState) (event : DecodedEvent) :
    (covHandle st event).position.events_processed
      = st.position.events_processed + 1 := by
  unfold covHandle
  split
  · rfl
  · simp only [covApply_position, ProjectionPosition.advance]

/-! ## Saga (`saga/src/state.rs`, `aggregate.rs`, `events.rs`,
`order_fulfillment.rs`, `coordinator.rs`) -/

inductive SagaState where
  | notStarted
  | running
  | compensating
  | completed
  | failed
deriving DecidableEq, Repr

def SagaState.can_run : SagaState → Bool
  | .notStarted => true
  | _ => false

def SagaState.can_compensate : SagaState → Bool
  | .running => true
  | _ => false

def SagaState.is_terminal : SagaState → Bool
  | .completed => true
  | .failed => true
  | _ => false

def STEP_RESERVE_INVENTORY : String := "reserve_inventory"

def STEP_PROCESS_PAYMENT : String := "process_payment"

def STEP_CREATE_SHIPMENT : String := "create_shipment"

def SAGA_TYPE : String := "OrderFulfillment"

/-- `SagaEvent` with its data records flattened into constructor fields;
timestamps are explicit `Int` arguments. -/
inductive SagaEvent where
  | sagaStarted (saga_id order_id : Nat) (saga_type : String) (started_at : Int)
  | stepStarted (step_name : String)
  | stepCompleted (step_name : String)
      (reservation_id payment_id tracking_number : Option String)
  | stepFailed (step_name : String) (error : String)
  | compensationStarted (from_step : String)
  | compensationStepCompleted (step_name : String)
  | compensationStepFailed (step_name : String) (error : String)
  | sagaCompleted (completed_at : Int)
  | sagaFailed (reason : String) (failed_at : Int)
deriving DecidableEq, Repr

/-- The events on which `SagaInstance::apply` reaches a terminal state. -/
def SagaEvent.is_terminal_event : SagaEvent → Bool
  | .sagaCompleted _ => true
  | .sagaFailed _ _ => true
  | _ => false

structure SagaInstance where
  id : Option Nat := none
  version : Int := 0
  saga_type : String := ""
  order_id : Option Nat := none
  state : SagaState := .notStarted
  current_step : Nat := 0
  completed_steps : List String := []
  reservation_id : Option String := none
  payment_id : Option String := none
  tracking_number : Option String := none
  failure_reason : Option String := none
deriving DecidableEq, Repr

/-- `SagaInstance::apply` — note it matches on the event alone; there is no
guard on the current (possibly terminal) state. `StepFailed` stores the
step's ERROR MESSAGE into `failure_reason`. -/
def SagaInstance.apply (s : SagaInstance) : SagaEvent → SagaInstance
  | .sagaStarted saga_id order_id saga_type _ =>
    { s with id := some saga_id, order_id := some order_id,
             saga_type := saga_type, state := .running }
  | .stepStarted _ => { s with current_step := s.current_step + 1 }
  | .stepCompleted step_name rid pid tn =>
    { s with completed_steps := s.completed_steps ++ [step_name],
             reservation_id := match rid with
               | some r => some r
               | none => s.reservation_id,
             payment_id := match pid with
               | some p => some p
               | none => s.payment_id,
             tracking_number := match tn with
               | some t => some t
               | none => s.tracking_number }
  | .stepFailed _ error => { s with failure_reason := some error }
  | .compensationStarted _ => { s with state := .compensating }
  | .compensationStepCompleted _ => s
  | .compensationStepFailed _ _ => s
  | .sagaCompleted _ => { s with state := .completed }
  | .sagaFailed reason _ => { s with state := .failed, failure_reason := some reason }

/-- Outcomes of the external-service calls consumed by one saga run; each
`ok` carries the produced id, each `error` the `SagaError` display string. -/
structure SagaServices where
  reserve : Except String String
  charge : Except String String
  create_shipment : Except String String
  release : Except String Unit
  refund : Except String Unit
  cancel_shipment : Except String Unit
deriving DecidableEq, Repr

inductive SagaRunError where
  | orderNotReady (message : String)
  | domain (e : OrderError)
deriving DecidableEq, Repr

/-- The observable effects of one `execute_saga` run: the saga's appended
event stream and replayed instance, and the order aggregate with the order
events applied to it. -/
structure SagaRun where
  saga_events : List SagaEvent := []
  saga : SagaInstance := {}
  order : Order := {}
  order_events : List OrderEvent := []
deriving DecidableEq, Repr

/-- `append_saga_event` followed by `saga.apply(event)` — the coordinator
persists each saga event and applies it to its in-memory instance. The
store append always succeeds in this single-run model. -/
def appendSaga (run : SagaRun) (e : SagaEvent) : SagaRun :=
  { run with saga_events := run.saga_events ++ [e], saga := run.saga.apply e }

/-- An order-service command call: on success the emitted events are applied
to the order and recorded. -/
def advanceOrder (run : SagaRun) (res : Except OrderError (List OrderEvent)) :
    Except SagaRunError SagaRun :=
  match res with
  | .error e => .error (.domain e)
  | .ok evs =>
    .ok { run with order := run.order.apply_events evs,
                   order_events := run.order_events ++ evs }

/-- One arm of `compensate`'s reverse walk over `completed_steps`. -/
def compensateStep (svc : SagaServices) (run : SagaRun) (step : String) : SagaRun :=
  if step = STEP_CREATE_SHIPMENT then
    match run.saga.tracking_number with
    | some _ =>
      match svc.cancel_shipment with
      | .ok _ => appendSaga run (.compensationStepCompleted step)
      | .error e => appendSaga run (.compensationStepFailed step e)
    | none => run
  else if step = STEP_PROCESS_PAYMENT then
    match run.saga.payment_id with
    | some _ =>
      match svc.refund with
      | .ok _ => appendSaga run (.compensationStepCompleted step)
      | .error e => appendSaga run (.compensationStepFailed step e)
    | none => run
  else if step = STEP_RESERVE_INVENTORY then
    match run.saga.reservation_id with
    | some _ =>
      match svc.release with
      | .ok _ => appendSaga run (.compensationStepCompleted step)
      | .error e => appendSaga run (.compensationStepFailed step e)
    | none => run
  else run

/-- `CompensationStarted` plus the reverse walk of `compensate`.
`failed_step` is taken — exactly as in the source — from
`saga.failure_reason()`, which holds the failed step's error message, not
its name. -/
def compensationPhase (svc : SagaServices) (run0 : SagaRun) : SagaRun :=
  let failed_step := run0.saga.failure_reason.getD "unknown"
  let run1 := appendSaga run0 (.compensationStarted failed_step)
  (run1.saga.completed_steps.reverse).foldl (compensateStep svc) run1

/-- `SagaCoordinator::compensate`: compensation walk, then cancel the order
with reason `"Saga failed: " ++ failed_step`, then append `SagaFailed`. -/
def compensate (svc : SagaServices) (run0 : SagaRun) : Except SagaRunError SagaRun :=
  match (compensationPhase svc run0).order.cancel 0
      ("Saga failed: " ++ run0.saga.failure_reason.getD "unknown")
      (some "saga_coordinator") with
  | .error e => .error (.domain e)
  | .ok evs =>
    .ok (appendSaga
      { compensationPhase svc run0 with
        order := (compensationPhase svc run0).order.apply_events evs,
        order_events := (compensationPhase svc run0).order_events ++ evs }
      (.sagaFailed ("Step failed: " ++ run0.saga.failure_reason.getD "unknown") 0))

/-- `SagaCoordinator::execute_saga`, as a pure function of the loaded order
and the external-service outcomes. Guards, the submit, the three forward
steps with their order-state advances, and compensation on failure follow
`coordinator.rs`; timestamps are 0. -/
def execute_saga (order : Order) (order_id saga_id : Nat) (svc : SagaServices) :
    Except SagaRunError SagaRun :=
  if order.state ≠ .draft then
    .error (.orderNotReady "Order is not in Draft state")
  else if !order.has_items then .error (.orderNotReady "Order has no items")
  else
    match order.customer_id with
    | none => .error (.orderNotReady "Order has no customer ID")
    | some _ =>
      match order.submit 0 with
      | .error e => .error (.domain e)
      | .ok submit_events =>
        let run0 : SagaRun :=
          { saga_events := [], saga := {},
            order := order.apply_events submit_events,
            order_events := submit_events }
        let run1 := appendSaga run0 (.sagaStarted saga_id order_id SAGA_TYPE 0)
        let run2 := appendSaga run1 (.stepStarted STEP_RESERVE_INVENTORY)
        match svc.reserve with
        | .error e =>
          compensate svc (appendSaga run2 (.stepFailed STEP_RESERVE_INVENTORY e))
        | .ok rid =>
          let run3 := appendSaga run2
            (.stepCompleted STEP_RESERVE_INVENTORY (some rid) none none)
          match advanceOrder run3 (run3.order.mark_reserved 0 (some rid)) with
          | .error e => .error e
          | .ok run4 =>
            let run5 := appendSaga run4 (.stepStarted STEP_PROCESS_PAYMENT)
            match svc.charge with
            | .error e =>
              compensate svc (appendSaga run5 (.stepFailed STEP_PROCESS_PAYMENT e))
            | .ok pid =>
              let run6 := appendSaga run5
                (.stepCompleted STEP_PROCESS_PAYMENT none (some pid) none)
              match advanceOrder run6 (run6.order.start_processing 0 (some pid)) with
              | .error e => .error e
              | .ok run7 =>
                let run8 := appendSaga run7 (.stepStarted STEP_CREATE_SHIPMENT)
                match svc.create_shipment with
                | .error e =>
                  compensate svc
                    (appendSaga run8 (.stepFailed STEP_CREATE_SHIPMENT e))
                | .ok tn =>
                  let run9 := appendSaga run8
                    (.stepCompleted STEP_CREATE_SHIPMENT none none (some tn))
                  match advanceOrder run9 (run9.order.complete 0 (some tn)) with
                  | .error e => .error e
                  | .ok run10 => .ok (appendSaga run10 (.sagaCompleted 0))

/-! ## Claim C8: terminal saga instances -/

theorem compensateStep_all (svc : SagaServices) (run : SagaRun) (step : String)
    (hpre : run.saga_events.all (fun e => !e.is_terminal_event) = true) :
    (compensateStep svc run step).saga_events.all
      (fun e => !e.is_terminal_event) = true := by
  unfold compensateStep
  repeat' split
  all_goals
    first
      | simp only [hpre]
      | (simp only [appendSaga, List.all_append, hpre, Bool.true_and]
         simp [SagaEvent.is_terminal_event])

theorem compensate_fold_all (svc : SagaServices) (steps : List String)
    (run : SagaRun)
    (hpre : run.saga_events.all (fun e => !e.is_terminal_event) = true) :
    (steps.foldl (compensateStep svc) run).saga_events.all
      (fun e => !e.is_terminal_event) = true := by
  induction steps generalizing run with
  | nil => exact hpre
  | cons s tl ih => exact ih _ (compensateStep_all svc run s hpre)

theorem compensationPhase_all (svc : SagaServices) (run0 : SagaRun)
    (hpre : run0.saga_events.all (fun e => !e.is_terminal_event) = true) :
    (compensationPhase svc run0).saga_events.all
      (fun e => !e.is_terminal_event) = true := by
  unfold compensationPhase
  apply compensate_fold_all
  simp only [appendSaga, List.all_append, hpre, Bool.true_and]
  simp [SagaEvent.is_terminal_event]

theorem advanceOrder_ok {run : SagaRun} {res : Except OrderError (List OrderEvent)}
    {run' : SagaRun} (h : advanceOrder run res = .ok run') :
    run'.saga_events = run.saga_events ∧ run'.saga = run.saga := by
  unfold advanceOrder at h
  split at h
  · exact absurd h (by simp)
  · injection h with h
    subst h
    exact ⟨rfl, rfl⟩

theorem compensate_shape {svc : SagaServices} {runX run : SagaRun}
    (h : compensate svc runX = .ok run)
    (hpre : runX.saga_events.all (fun e => !e.is_terminal_event) = true) :
    run.saga_events.dropLast.all (fun e => !e.is_terminal_event) = true ∧
    run.saga_events.getLast?.map SagaEvent.is_terminal_event = some true ∧
    run.saga.state.is_terminal = true := by
  unfold compensate at h
  split at h
  · exact absurd h (by simp)
  case _ evs hcancel =>
    injection h with h
    subst h
    refine ⟨?_, ?_, ?_⟩
    · simp only [appendSaga, List.dropLast_concat]
      exact compensationPhase_all svc runX hpre
    · simp [appendSaga, List.getLast?_concat, SagaEvent.is_terminal_event]
    · simp [appendSaga, SagaInstance.apply, SagaState.is_terminal]

/-- C8 (amended): `SagaInstance::apply` has no terminal-state guard: a
terminal instance IS mutated by further events (see the counterexample —
`StepStarted` bumps `current_step`, `SagaStarted` even resets the state to
Running). What does hold is that the coordinator appends no event after the
terminal one: in every saga event sequence produced by `execute_saga`, all
events before the last are non-terminal, the last event is the terminal
`SagaCompleted`/`SagaFailed`, and the replayed instance ends terminal — so
no event is ever applied to an already-terminal instance. -/
theorem saga_terminal_event_last (order : Order) (order_id saga_id : Nat)
    (svc : SagaServices) (run : SagaRun)
    (h : execute_saga order order_id saga_id svc = .ok run) :
    run.saga_events.dropLast.all (fun e => !e.is_terminal_event) = true ∧
    run.saga_events.getLast?.map SagaEvent.is_terminal_event = some true ∧
    run.saga.state.is_terminal = true := by
  obtain ⟨res, chg, shp, rel, ref, can⟩ := svc
  unfold execute_saga at h
  split at h
  · exact absurd h (by simp)
  split at h
  · exact absurd h (by simp)
  split at h
  · exact absurd h (by simp)
  split at h
  · exact absurd h (by simp)
  case _ submit_events hsubmit =>
    cases res with
    | error e =>
      dsimp only at h
      exact compensate_shape h (by simp [appendSaga, SagaEvent.is_terminal_event])
    | ok rid =>
      dsimp only at h
      split at h
      · exact absurd h (by simp)
      case _ run4 hadv1 =>
        obtain ⟨hev4, -⟩ := advanceOrder_ok hadv1
        cases chg with
        | error e =>
          dsimp only at h
          refine compensate_shape h ?_
          simp [appendSaga, List.all_append, hev4, SagaEvent.is_terminal_event]
        | ok pid =>
          dsimp only at h
          split at h
          · exact absurd h (by simp)
          case _ run7 hadv2 =>
            obtain ⟨hev7, -⟩ := advanceOrder_ok hadv2
            cases shp with
            | error e =>
              dsimp only at h
              refine compensate_shape h ?_
              simp [appendSaga, List.all_append, hev7, hev4,
                SagaEvent.is_terminal_event]
            | ok tn =>
              dsimp only at h
              split at h
              · exact absurd h (by simp)
              case _ run10 hadv3 =>
                obtain ⟨hev10, hsaga10⟩ := advanceOrder_ok hadv3
                injection h with h
                subst h
                refine ⟨?_, ?_, ?_⟩
                · simp only [appendSaga, List.dropLast_concat]
                  simp [appendSaga, List.all_append, hev10, hev7, hev4,
                    SagaEvent.is_terminal_event]
                · simp [appendSaga, List.getLast?_concat, SagaEvent.is_terminal_event]
                · simp [appendSaga, SagaInstance.apply, SagaState.is_terminal]

/-- A saga instance driven to the terminal state Completed by replay. -/
def sagaDone : SagaInstance :=
  (SagaInstance.apply {} (.sagaStarted 1 2 SAGA_TYPE 0)).apply (.sagaCompleted 0)

/-- C8 counterexample: `SagaInstance::apply` applies events to a terminal
instance unconditionally — `StepStarted` increments `current_step` of a
Completed saga (so the instance is NOT left unchanged), and `SagaStarted`
even moves it back to Running. -/
theorem saga_apply_after_terminal_mutates :
    sagaDone.state = .completed ∧
    sagaDone.state.is_terminal = true ∧
    sagaDone.apply (.stepStarted STEP_RESERVE_INVENTORY) ≠ sagaDone ∧
    (sagaDone.apply (.stepStarted STEP_RESERVE_INVENTORY)).current_step
      = sagaDone.current_step + 1 ∧
    (sagaDone.apply (.sagaStarted 3 4 SAGA_TYPE 0)).state = .running :=
  ⟨by decide, by decide, by decide, by decide, by decide⟩

/-! ## Claim C4: the post-failure cancellation reason -/

/-- A ready order (Draft, one item, customer id 6), as `execute_saga`
requires before starting. -/
def oReady : Order :=
  (Order.apply_events {} [.orderCreated ⟨5, 6, 0⟩]).apply_events
    [.itemAdded ⟨"SKU-001", "Widget", 2, ⟨1000⟩⟩]

/-- Service outcomes with the payment charge failing the way the in-memory
stub fails: `SagaError::PaymentService("Payment declined")`, whose display
string is the recorded step error. -/
def svcPayFail : SagaServices :=
  { reserve := .ok "RES-0001",
    charge := .error "Payment service error: Payment declined",
    create_shipment := .ok "TRACK-0001",
    release := .ok (), refund := .ok (), cancel_shipment := .ok () }

/-- The reasons carried by the `OrderCancelled` events of a trace. -/
def cancelReasons (events : List OrderEvent) : List String :=
  events.filterMap (fun e => match e with
    | .orderCancelled data => some data.reason
    | _ => none)

/-- C4 (code bug): when the payment step fails, `execute_saga` returns
successfully and the persisted saga ends `Failed` with the order
`Cancelled` — but the cancellation reason is
`"Saga failed: <error message>"`, not `"Saga failed: <step name>"`:
`compensate` reads its `failed_step` from `saga.failure_reason()`, which
`apply(StepFailed)` set to the step's error message, although the variable
is named `failed_step` and the spec (and `CompensationStarted`'s `from_step`
field) expect the step name, e.g. `process_payment`. -/
theorem saga_failure_cancel_reason_is_error_message :
    (execute_saga oReady 5 9 svcPayFail).toOption.map
      (fun r => (r.saga.state, r.order.state, cancelReasons r.order_events,
                 r.saga.completed_steps))
      = some (.failed, .cancelled,
          ["Saga failed: Payment service error: Payment declined"],
          [STEP_RESERVE_INVENTORY]) ∧
    "Saga failed: Payment service error: Payment declined"
      ≠ "Saga failed: " ++ STEP_PROCESS_PAYMENT := by
  exact ⟨by decide, by decide⟩

/-- All-success service outcomes, for the C8 witness. -/
def svcAllOk : SagaServices :=
  { reserve := .ok "RES-0001", charge := .ok "PAY-0001",
    create_shipment := .ok "TRACK-0001",
    release := .ok (), refund := .ok (), cancel_shipment := .ok () }

/-- The run produced by the happy path on `oReady`. -/
def runHappy : SagaRun :=
  (execute_saga oReady 5 9 svcAllOk).toOption.getD {}

/-- Witness for C8 on the happy-path run: every event before the last is
non-terminal, the last is terminal, and the replayed saga ends terminal. -/
theorem saga_terminal_event_last_witness :
    runHappy.saga_events.dropLast.all (fun e => !e.is_terminal_event) = true ∧
    runHappy.saga_events.getLast?.map SagaEvent.is_terminal_event = some true ∧
    runHappy.saga.state.is_terminal = true :=
  saga_terminal_event_last oReady 5 9 svcAllOk runHappy (by decide)

end EventSourcing
